import Mathlib

set_option maxHeartbeats 1600000

/-!
# Verification of the account-mapping backend (`src/backend/main.py`)

Shallow embedding of the retrying completion client (`ClaudeAPIClient.chat_completion`),
the response parser (`ClaudeAPIClient.parse_claude_response`), and the batch
orchestrator (`map_accounts`, `get_mapping_status`) of `src/backend/main.py`.

Modelling conventions:
* Python strings are `List Char`; the embedding works at the ASCII level
  (Python's `re`/`str` Unicode extensions of `\s`, `\d`, `.lower()` beyond
  ASCII are not modelled — every string the program manipulates is ASCII).
* The three regular expressions of `parse_claude_response` are embedded by
  hand with Python `re.search` semantics: leftmost match position, greedy
  quantifiers with backtracking, `re.IGNORECASE` on literal characters.
* Network I/O, wall-clock time and the event loop are environmental: the
  upstream service is a function from attempt number to a response, sleeps
  are recorded in a trace instead of elapsing, and wall-clock durations
  (`processing_time` fields) are omitted from the model records.
* Python exceptions are modelled as values: each `raise` site produces the
  exact message string built by the source.
-/

/-! ## Characters: ASCII models of Python's `\s`, `\d`, `str.lower` -/

/-- Python regex `\s` / `str.strip` whitespace, ASCII part: `[ \t\n\r\v\f]`. -/
def pyIsSpace (c : Char) : Bool :=
  c = ' ' || c = '\t' || c = '\n' || c = '\r' || c = '\x0b' || c = '\x0c'

/-- Python regex `\d`, ASCII part: `[0-9]`. -/
def pyIsDigit (c : Char) : Bool :=
  '0' ≤ c && c ≤ '9'

/-- ASCII lower-casing (Python `str.lower` restricted to ASCII). Written as an
explicit 26-way match so that proofs can case on it without `Char.ofNat`. -/
def lowerChar (c : Char) : Char :=
  match c with
  | 'A' => 'a' | 'B' => 'b' | 'C' => 'c' | 'D' => 'd' | 'E' => 'e'
  | 'F' => 'f' | 'G' => 'g' | 'H' => 'h' | 'I' => 'i' | 'J' => 'j'
  | 'K' => 'k' | 'L' => 'l' | 'M' => 'm' | 'N' => 'n' | 'O' => 'o'
  | 'P' => 'p' | 'Q' => 'q' | 'R' => 'r' | 'S' => 's' | 'T' => 't'
  | 'U' => 'u' | 'V' => 'v' | 'W' => 'w' | 'X' => 'x' | 'Y' => 'y'
  | 'Z' => 'z'
  | c => c

/-- `re.IGNORECASE` equality of one character (ASCII). -/
def ciEq (a b : Char) : Bool :=
  lowerChar a == lowerChar b

/-- Python `str.lower` on a string (ASCII). -/
def lowerList (l : List Char) : List Char :=
  l.map lowerChar

/-- Python `str.strip()`: drop leading and trailing whitespace. -/
def pyStrip (l : List Char) : List Char :=
  (((l.dropWhile pyIsSpace).reverse).dropWhile pyIsSpace).reverse

/-- Python `str.split(',')`: split at every comma, keeping empty fragments
(`"".split(',') == ['']`). -/
def splitComma : List Char → List (List Char)
  | [] => [[]]
  | c :: cs =>
    if c = ',' then [] :: splitComma cs
    else
      match splitComma cs with
      | [] => [[c]]
      | p :: ps => (c :: p) :: ps

/-- Python `int()` on a nonempty decimal digit string. -/
def digitsToNat (l : List Char) : Nat :=
  l.foldl (fun acc d => acc * 10 + (d.toNat - 48)) 0

/-! ## The four regexes of `parse_claude_response`, embedded with
`re.search` semantics -/

/-- Case-insensitive literal prefix match: consume `label` from the front of
the text, returning the remainder on success.  This is how the literal part
of each pattern matches at a fixed position under `re.IGNORECASE`. -/
def stripPrefixCI : List Char → List Char → Option (List Char)
  | [], cs => some cs
  | _ :: _, [] => none
  | l :: ls, c :: cs => if ciEq l c then stripPrefixCI ls cs else none

/-- Does `needle` match case-insensitively at the front of the text? -/
def isPrefixCI (needle text : List Char) : Bool :=
  (stripPrefixCI needle text).isSome

/-- Does `needle` occur case-insensitively anywhere in the text? -/
def containsCI (needle : List Char) : List Char → Bool
  | [] => needle.isEmpty
  | c :: cs => isPrefixCI needle (c :: cs) || containsCI needle cs

/-- Rightmost character of `w` that is not `'\n'`, if any.  Used for the
backtracking case of `\s*([^\n]+)` when everything after the label is
whitespace: the regex engine gives back whitespace characters from the right
until `[^\n]+` can consume one. -/
def lastNonNewline (w : List Char) : Option Char :=
  w.foldl (fun acc c => if c ≠ '\n' then some c else acc) none

/-- Match `\s*([^\n]+)` (Python semantics, greedy with backtracking) against
the text just after the label; returns the group.  The greedy `\s*` may cross
newlines; if no non-whitespace character follows, backtracking lets `[^\n]+`
consume the last non-newline whitespace character. -/
def matchValueTail (cs : List Char) : Option (List Char) :=
  let w := cs.takeWhile pyIsSpace
  let r := cs.dropWhile pyIsSpace
  match r with
  | [] =>
    match lastNonNewline w with
    | some c => some [c]
    | none => none
  | _ :: _ => some (r.takeWhile (fun c => c ≠ '\n'))

/-- Match `\s*(\d+)` against the text just after `CONFIDENCE:`.  Whitespace
characters are never digits, so no backtracking can help here. -/
def matchDigitsTail (cs : List Char) : Option (List Char) :=
  match cs.dropWhile pyIsSpace with
  | [] => none
  | d :: r => if pyIsDigit d then some ((d :: r).takeWhile pyIsDigit) else none

/-- The label that stops the multi-line `REASONING` group. -/
def altLabelL : List Char := "ALTERNATIVES:".data

/-- Fuel-driven worker for `reasoningLoop` (structural recursion so that the
kernel can evaluate it; each iteration consumes at least the leading newline,
so `l.length` fuel always suffices). -/
def reasoningLoopF : Nat → List Char → List Char
  | 0, _ => []
  | fuel + 1, l =>
    match l with
    | '\n' :: rest =>
      if isPrefixCI altLabelL rest then []
      else
        match rest.takeWhile (fun c => c ≠ '\n') with
        | [] => []
        | c :: line =>
          '\n' :: ((c :: line) ++ reasoningLoopF fuel (rest.dropWhile (fun c => c ≠ '\n')))
    | _ => []

/-- The loop `(?:\n(?!ALTERNATIVES:)[^\n]+)*` of the `REASONING` pattern:
greedily consume a newline plus a nonempty line, as long as the line does not
start (case-insensitively) with `ALTERNATIVES:`. -/
def reasoningLoop (l : List Char) : List Char :=
  reasoningLoopF l.length l

/-- Match `\s*([^\n]+(?:\n(?!ALTERNATIVES:)[^\n]+)*)` against the text just
after `REASONING:`. -/
def matchReasoningTail (cs : List Char) : Option (List Char) :=
  let w := cs.takeWhile pyIsSpace
  let r := cs.dropWhile pyIsSpace
  match r with
  | [] =>
    match lastNonNewline w with
    | some c => some [c]
    | none => none
  | _ :: _ =>
    some (r.takeWhile (fun c => c ≠ '\n') ++ reasoningLoop (r.dropWhile (fun c => c ≠ '\n')))

/-- `re.search`: try the pattern (literal label followed by a tail matcher) at
position 0, 1, 2, … and return the group of the first position where the whole
pattern matches. -/
def reSearch (label : List Char) (tailMatch : List Char → Option (List Char)) :
    List Char → Option (List Char)
  | [] => none
  | c :: cs =>
    match stripPrefixCI label (c :: cs) with
    | some rest =>
      match tailMatch rest with
      | some g => some g
      | none => reSearch label tailMatch cs
    | none => reSearch label tailMatch cs

def mappingLabelL : List Char := "MAPPING:".data
def confidenceLabelL : List Char := "CONFIDENCE:".data
def reasoningLabelL : List Char := "REASONING:".data

/-- The alternatives post-processing of `parse_claude_response`:
`[alt.strip() for alt in g.split(',') if alt.strip() and alt.strip().lower() != 'none']`. -/
def altProcess (g : List Char) : List (List Char) :=
  ((splitComma g).map pyStrip).filter (fun a => !a.isEmpty && lowerList a != "none".data)

/-- The record returned by `ClaudeAPIClient.parse_claude_response`. -/
structure ParsedResponse where
  mapping : List Char
  confidence : Int
  reasoning : List Char
  alternatives : List (List Char)
  raw_response : List Char
deriving DecidableEq, Repr

/-- `ClaudeAPIClient.parse_claude_response` (main.py lines 222–237): four
`re.search` calls with `re.IGNORECASE` and per-field defaulting.  Total by
construction — the Python code raises on no input (`int` only ever sees a
nonempty digit group). -/
def parse_claude_response (response_text : List Char) : ParsedResponse :=
  let mapping := reSearch mappingLabelL matchValueTail response_text
  let confidence := reSearch confidenceLabelL matchDigitsTail response_text
  let reasoning := reSearch reasoningLabelL matchReasoningTail response_text
  let alternatives := reSearch altLabelL matchValueTail response_text
  { mapping := match mapping with
      | some g => pyStrip g
      | none => "UNKNOWN".data
    confidence := match confidence with
      | some g => (digitsToNat g : Int)
      | none => 0
    reasoning := match reasoning with
      | some g => pyStrip g
      | none => "No reasoning provided".data
    alternatives := match alternatives with
      | some g => altProcess g
      | none => []
    raw_response := response_text }

/-! ## The retrying completion client (`ClaudeAPIClient.chat_completion`,
main.py lines 123–181)

The upstream service is environmental: it is modelled as a function from the
attempt index to the response received (or a timeout) on that attempt.  The
body of a 200-response is the list of the `text` fields of its `content`
blocks; an absent `content` key and an empty `content` list behave
identically in the source and are both modelled by the empty list. -/

/-- One upstream interaction, as seen by the `async with session.post` block. -/
inductive UpstreamResp where
  | http (status : Nat) (content : List (List Char)) (errText : List Char)
  | timeout
deriving DecidableEq, Repr

/-- Result of `chat_completion`: the completion text, or the message of the
exception that escaped the call. -/
inductive CCResult where
  | ok (text : List Char)
  | fail (msg : List Char)
deriving DecidableEq, Repr

/-- Observable trace of one `chat_completion` call: its result, the number of
HTTP attempts made (timeouts included), and the `asyncio.sleep` durations (in
seconds) performed between attempts, in order. -/
structure CCTrace where
  result : CCResult
  attempts : Nat
  sleeps : List Nat
deriving DecidableEq, Repr

/-- The decimal digit character for `d < 10` (explicit match, proof-friendly). -/
def digitChar10 (d : Nat) : Char :=
  match d with
  | 0 => '0' | 1 => '1' | 2 => '2' | 3 => '3' | 4 => '4'
  | 5 => '5' | 6 => '6' | 7 => '7' | 8 => '8' | _ => '9'

/-- Fuel-driven worker for `natDigits` (structural, so the kernel can
evaluate it; `n` itself is always enough fuel since `n / 10 < n`). -/
def natDigitsF : Nat → Nat → List Char
  | 0, _ => []
  | fuel + 1, n =>
    if n < 10 then [digitChar10 n]
    else natDigitsF fuel (n / 10) ++ [digitChar10 (n % 10)]

/-- Decimal digits of a natural number (Python `str(int)` / f-string). -/
def natDigits (n : Nat) : List Char :=
  natDigitsF (n + 1) n

/-- Python `needle in hay` substring test. -/
def containsSub (hay needle : List Char) : Bool :=
  match hay with
  | [] => needle.isEmpty
  | _ :: t => needle.isPrefixOf hay || containsSub t needle

def noContentMsg : List Char := "No content in Claude response".data
def overloadMsg : List Char := "Claude API is overloaded. Please try again later.".data
def apiErrMsg (status : Nat) : List Char := "Claude API error: ".data ++ natDigits status
def wrapFail (msg : List Char) : List Char :=
  "Failed to get response from Claude: ".data ++ msg
def timeoutFinalMsg : List Char := "Request timeout after multiple retries".data
def maxRetriesMsg : List Char := "Max retries exceeded".data

/-- The blanket `except Exception` handler's retry test:
`"overloaded" in str(e).lower() or "529" in str(e)`. -/
def excRetryable (msg : List Char) : Bool :=
  containsSub (lowerList msg) "overloaded".data || containsSub msg "529".data

/-- The `for attempt in range(max_retries)` loop of `chat_completion`,
embedded with an explicit iteration count (`rem` = iterations remaining, so
`rem = maxR - attempt` at every call from `ccRun`).  Branches mirror the
source exactly:
* 200 with content → return the first block's text;
* 200 without content → `raise Exception("No content…")`, which the blanket
  handler re-raises wrapped (its message is neither "overloaded" nor "529");
* 529 → sleep `(2 ** attempt) * 2` and continue if a retry remains, else
  `raise Exception("Claude API is overloaded…")`, which the blanket handler
  wraps (the `attempt < max_retries - 1` re-check is false at that point);
* other status → `raise Exception(f"Claude API error: {status}")`, which the
  blanket handler retries only if its text contains "overloaded"/"529";
* timeout → sleep `2 ** attempt` and continue if a retry remains, else
  `raise Exception("Request timeout after multiple retries")` (raised inside
  the `except asyncio.TimeoutError` clause, hence not wrapped). -/
def ccGo (up : Nat → UpstreamResp) (maxR : Nat) : Nat → Nat → CCTrace
  | 0, attempt => ⟨.fail maxRetriesMsg, attempt, []⟩
  | rem + 1, attempt =>
    match up attempt with
    | .http status content _ =>
      if status = 200 then
        match content with
        | t :: _ => ⟨.ok t, attempt + 1, []⟩
        | [] =>
          if excRetryable noContentMsg ∧ attempt < maxR - 1 then
            let t := ccGo up maxR rem (attempt + 1)
            ⟨t.result, t.attempts, (2 ^ attempt * 2) :: t.sleeps⟩
          else ⟨.fail (wrapFail noContentMsg), attempt + 1, []⟩
      else if status = 529 then
        if attempt < maxR - 1 then
          let t := ccGo up maxR rem (attempt + 1)
          ⟨t.result, t.attempts, (2 ^ attempt * 2) :: t.sleeps⟩
        else ⟨.fail (wrapFail overloadMsg), attempt + 1, []⟩
      else
        if excRetryable (apiErrMsg status) ∧ attempt < maxR - 1 then
          let t := ccGo up maxR rem (attempt + 1)
          ⟨t.result, t.attempts, (2 ^ attempt * 2) :: t.sleeps⟩
        else ⟨.fail (wrapFail (apiErrMsg status)), attempt + 1, []⟩
    | .timeout =>
      if attempt < maxR - 1 then
        let t := ccGo up maxR rem (attempt + 1)
        ⟨t.result, t.attempts, (2 ^ attempt) :: t.sleeps⟩
      else ⟨.fail timeoutFinalMsg, attempt + 1, []⟩

/-- `chat_completion(messages, system_prompt, max_retries)`: run the retry
loop from attempt 0. -/
def ccRun (up : Nat → UpstreamResp) (maxR : Nat) : CCTrace :=
  ccGo up maxR maxR 0

/-- Upstream responses that the source treats as transient: HTTP 529 and
timeouts. -/
def isTransient : UpstreamResp → Bool
  | .http s _ _ => s = 529
  | .timeout => true

/-- The backoff the source actually performs before retrying attempt `i`:
`(2 ** i) * 2` seconds after a 529, but `2 ** i` seconds after a timeout. -/
def transientSleep (r : UpstreamResp) (i : Nat) : Nat :=
  match r with
  | .timeout => 2 ^ i
  | _ => 2 ^ i * 2

/-! ## The batch orchestrator (`map_accounts`, main.py lines 486–568) and the
session store (`mapping_sessions`, `get_mapping_status`, lines 570–576)

Per account the orchestrator calls `claude_client.map_account`, which sends a
prompt through `chat_completion` and parses the returned text.  The prompt is
forwarded verbatim to the environment, so the environment is modelled as a
function from the account's position in the batch to the outcome of its
`chat_completion` call (completion text, or escaped exception message).
`session_id`, timestamps and `processing_time` are environmental
(uuid/wall-clock) and are omitted from the model records. -/

/-- `AccountData` (main.py lines 61–66); the `metadata` dict is dropped
(it never influences the modelled control flow). -/
structure AccountData where
  account_code : List Char
  account_description : List Char
  account_type : Option (List Char)
  account_category : Option (List Char)
deriving DecidableEq, Repr

/-- Outcome of one `chat_completion` call as seen by `map_account`. -/
inductive ChatOutcome where
  | ok (text : List Char)
  | fail (msg : List Char)
deriving DecidableEq, Repr

/-- A FastAPI `HTTPException(status_code, detail)`. -/
structure HTTPExcM where
  status_code : Nat
  detail : List Char
deriving DecidableEq, Repr

/-- `str(e)` of a (Starlette) `HTTPException`: `f"{status_code}: {detail}"`. -/
def httpExcStr (e : HTTPExcM) : List Char :=
  natDigits e.status_code ++ ": ".data ++ e.detail

/-- Outcome of `ClaudeAPIClient.map_account` (main.py lines 183–220): parse
the completion text, or re-raise the client failure as
`HTTPException(500, f"API call failed: {e}")`. -/
inductive MapAccountOutcome where
  | ok (pr : ParsedResponse)
  | fail (e : HTTPExcM)
deriving DecidableEq, Repr

def map_account (chatResult : ChatOutcome) : MapAccountOutcome :=
  match chatResult with
  | .ok t => .ok (parse_claude_response t)
  | .fail m => .fail ⟨500, "API call failed: ".data ++ m⟩

/-- One element of `results` in `map_accounts` (`MappingResult`, main.py
lines 74–80, minus the environmental `processing_time`). -/
structure MappingResultM where
  source_account_code : List Char
  target_account_code : List Char
  confidence_score : Int
  reasoning : List Char
  alternatives : List (List Char)
deriving DecidableEq, Repr

/-- The `summary` dict of `map_accounts` (minus the environmental
`processing_time`). -/
structure MappingSummaryM where
  total_mappings : Nat
  high_confidence_mappings : Nat
  average_confidence : Rat
  confidence_threshold : Int
deriving DecidableEq, Repr

/-- One record of the `mapping_sessions` store. -/
structure SessionRec where
  status : List Char
  total_accounts : Nat
  processed_accounts : Nat
  results : List MappingResultM
  summary : Option MappingSummaryM
  error : Option (List Char)
deriving DecidableEq, Repr

/-- The `MappingResponse` returned on success (minus `session_id`). -/
structure MappingResponseM where
  results : List MappingResultM
  summary : MappingSummaryM
  status : List Char
deriving DecidableEq, Repr

/-- Result of the `map_accounts` endpoint: the response, or the
`HTTPException(500, f"Mapping process failed: {e}")` it raises. -/
inductive BatchOutcome where
  | ok (resp : MappingResponseM)
  | fail (e : HTTPExcM)
deriving DecidableEq, Repr

/-- Building one `MappingResult` from a source account and a parsed response
(main.py lines 519–526). -/
def mkResult (src : AccountData) (pr : ParsedResponse) : MappingResultM :=
  { source_account_code := src.account_code
    target_account_code := pr.mapping
    confidence_score := pr.confidence
    reasoning := pr.reasoning
    alternatives := pr.alternatives }

/-- Intermediate state of the `for i, source_account in enumerate(...)` loop:
either all accounts processed, or the exception that aborted the loop. -/
inductive BatchStep where
  | ok (rs : List MappingResultM) (sess : SessionRec)
  | fail (e : HTTPExcM) (sess : SessionRec)
deriving DecidableEq, Repr

/-- The per-account loop of `map_accounts` (main.py lines 505–536): process
accounts strictly in order, appending each result to both the local list and
the session record; the first exception aborts the loop (the session keeps
everything appended so far). -/
def mapLoop (chat : Nat → ChatOutcome) :
    List AccountData → Nat → List MappingResultM → SessionRec → BatchStep
  | [], _, accRes, sess => .ok accRes sess
  | src :: rest, i, accRes, sess =>
    match map_account (chat i) with
    | .fail e => .fail e sess
    | .ok pr =>
      let res := mkResult src pr
      mapLoop chat rest (i + 1)
        (accRes ++ [res])
        { sess with processed_accounts := i + 1, results := sess.results ++ [res] }

/-- Round-half-to-even of `10 * x`, computed on the numerator/denominator so
the kernel can evaluate it (round-half-to-even is the rounding Python's
`round` uses; Python rounds the binary floating-point value, and this
idealises it over `ℚ`, agreeing whenever the value is exactly representable). -/
def roundTenthsHalfEven (x : Rat) : Int :=
  let n : Int := 10 * x.num
  let d : Int := (x.den : Int)
  let f := n.fdiv d
  let r := n - f * d
  if 2 * r < d then f
  else if d < 2 * r then f + 1
  else if f % 2 = 0 then f else f + 1

/-- Python `round(x, 1)`. -/
def pyRound1 (x : Rat) : Rat :=
  Rat.divInt (roundTenthsHalfEven x) 10

/-- `sum(r.confidence_score for r in results)`. -/
def sumConf (rs : List MappingResultM) : Int :=
  (rs.map (fun r => r.confidence_score)).sum

/-- `map_accounts` (main.py lines 486–568): run the loop, then on success
compute the summary statistics and mark the session completed; on failure
mark the session failed with `str(e)` and raise
`HTTPException(500, f"Mapping process failed: {e}")`. -/
def map_accounts (chat : Nat → ChatOutcome) (sources : List AccountData)
    (threshold : Int) : BatchOutcome × SessionRec :=
  let sess0 : SessionRec :=
    { status := "processing".data, total_accounts := sources.length,
      processed_accounts := 0, results := [], summary := none, error := none }
  match mapLoop chat sources 0 [] sess0 with
  | .fail e sess =>
    (.fail ⟨500, "Mapping process failed: ".data ++ httpExcStr e⟩,
     { sess with status := "failed".data, error := some (httpExcStr e) })
  | .ok results sess =>
    let highCount := (results.filter (fun r => threshold ≤ r.confidence_score)).length
    let avg : Rat := if results.length = 0 then 0 else Rat.divInt (sumConf results) (results.length : Int)
    let summary : MappingSummaryM :=
      { total_mappings := results.length
        high_confidence_mappings := highCount
        average_confidence := pyRound1 avg
        confidence_threshold := threshold }
    (.ok { results := results, summary := summary, status := "completed".data },
     { sess with status := "completed".data, summary := some summary })

/-- Result of the `get_mapping_status` endpoint. -/
inductive StatusOutcome where
  | ok (sess : SessionRec)
  | notFound (e : HTTPExcM)
deriving DecidableEq, Repr

/-- `get_mapping_status` (main.py lines 570–576): look the session up in the
store; 404 if absent, otherwise return the record as is. -/
def get_mapping_status (store : List (List Char × SessionRec)) (session_id : List Char) :
    StatusOutcome :=
  match store.lookup session_id with
  | some sess => .ok sess
  | none => .notFound ⟨404, "Session not found".data⟩

/-- Reference list of results in source order, one per account, built directly
from the per-account completion texts (the shape §4.3 of the spec demands:
"one MappingResult per source account, in input order"). -/
def resultsFrom (texts : Nat → List Char) : Nat → List AccountData → List MappingResultM
  | _, [] => []
  | i, src :: rest =>
    mkResult src (parse_claude_response (texts i)) :: resultsFrom texts (i + 1) rest

/-! ## The canonical four-label completion format (for claim C7) -/

/-- A "clean" field value for the canonical completion format: nonempty, no
leading or trailing whitespace, and free of newlines and colons (so it cannot
embed a labelled line of its own). -/
def cleanValue (v : List Char) : Bool :=
  !v.isEmpty
    && !(pyIsSpace (v.headD 'x'))
    && !(pyIsSpace (v.getLastD 'x'))
    && v.all (fun c => !(c = '\n') && !(c = ':'))

/-- The four-line completion text the prompt requests, with a two-line
`REASONING` section:
`MAPPING: m⏎CONFIDENCE: d⏎REASONING: r1⏎r2⏎ALTERNATIVES: a`. -/
def canonicalResponse (m d r1 r2 a : List Char) : List Char :=
  "MAPPING: ".data ++ m ++ "\n".data ++ "CONFIDENCE: ".data ++ d ++ "\n".data
    ++ "REASONING: ".data ++ r1 ++ "\n".data ++ r2 ++ "\n".data
    ++ "ALTERNATIVES: ".data ++ a

/-! ## Helper lemmas -/

/-- The confidence field of any parsed response is non-negative: it is either
the value of an unsigned digit group or the default `0`. -/
theorem parse_confidence_nonneg (s : List Char) :
    0 ≤ (parse_claude_response s).confidence := by
  unfold parse_claude_response
  cases h : reSearch confidenceLabelL matchDigitsTail s <;> simp [h]

/-- Every result list produced by a successful `mapLoop` run consists of
results with non-negative confidence, provided the accumulator does. -/
theorem mapLoop_ok_nonneg (chat : Nat → ChatOutcome) :
    ∀ (sources : List AccountData) (i : Nat) (accRes : List MappingResultM)
      (sess : SessionRec) (rs : List MappingResultM) (sess' : SessionRec),
      (∀ r ∈ accRes, 0 ≤ r.confidence_score) →
      mapLoop chat sources i accRes sess = .ok rs sess' →
      ∀ r ∈ rs, 0 ≤ r.confidence_score := by
  intro sources
  induction sources with
  | nil =>
    intro i accRes sess rs sess' hacc heq
    simp only [mapLoop] at heq
    cases heq
    exact hacc
  | cons src rest ih =>
    intro i accRes sess rs sess' hacc heq
    simp only [mapLoop] at heq
    cases hchat : chat i with
    | fail m => rw [hchat] at heq; simp [map_account] at heq
    | ok t =>
      rw [hchat] at heq
      simp only [map_account] at heq
      refine ih (i + 1) _ _ rs sess' ?_ heq
      intro r hr
      rcases List.mem_append.1 hr with h | h
      · exact hacc r h
      · rcases List.mem_singleton.1 h with rfl
        exact parse_confidence_nonneg t

/-! ## Claim C9 -/

/-- C9: for every input string the parsed confidence is a non-negative
integer — `CONFIDENCE` is matched as an unsigned digit sequence (`\d+`), so
no input can produce a negative confidence; in particular
`"CONFIDENCE: -5"` has no match for the digit group and falls back to `0`. -/
theorem claim9_confidence_nonneg :
    (∀ s : List Char, 0 ≤ (parse_claude_response s).confidence) ∧
      (parse_claude_response "CONFIDENCE: -5".data).confidence = 0 :=
  ⟨fun s => parse_confidence_nonneg s, by decide⟩

/-! ## Claim C1 -/

/-- C1, counterexample: the parser does not clamp the confidence to `[0,100]`.
A completion line `CONFIDENCE: 150` produces a `MappingResult` (through the
full `map_accounts` pipeline) whose `confidence_score` is `150`, outside
`[0,100]`. -/
theorem claim1_counterexample :
    (match (map_accounts
        (fun _ => ChatOutcome.ok "MAPPING: X\nCONFIDENCE: 150\nREASONING: ok\nALTERNATIVES: None".data)
        [⟨"1000".data, "Cash".data, none, none⟩] 80).fst with
      | .ok r => r.results.map (fun res => res.confidence_score)
      | .fail _ => []) = [150]
      ∧ ¬((0 : Int) ≤ 150 ∧ (150 : Int) ≤ 100) := by
  decide

/-- C1, amended: every `MappingResult` produced by the system has a
*non-negative* integer confidence (parsed from an unsigned digit sequence,
defaulting to 0 when absent), but no upper bound is enforced: values above
100 are passed through unclamped. -/
theorem claim1_amended (chat : Nat → ChatOutcome) (sources : List AccountData)
    (threshold : Int) (resp : MappingResponseM)
    (h : (map_accounts chat sources threshold).fst = .ok resp) :
    ∀ r ∈ resp.results, 0 ≤ r.confidence_score := by
  simp only [map_accounts] at h
  cases hloop : mapLoop chat sources 0 []
      { status := "processing".data, total_accounts := sources.length,
        processed_accounts := 0, results := [], summary := none, error := none } with
  | fail e sess => rw [hloop] at h; simp at h
  | ok results sess =>
    rw [hloop] at h
    simp only [BatchOutcome.ok.injEq] at h
    have hres : resp.results = results := by rw [← h]
    rw [hres]
    exact mapLoop_ok_nonneg chat sources 0 [] _ results sess (by simp) hloop

/-- Witness for C1 (amended): a concrete batch whose result the theorem
constrains. -/
theorem claim1_witness :
    (map_accounts (fun _ => ChatOutcome.ok "hello".data)
        [⟨"1000".data, "Cash".data, none, none⟩] 80).fst
      = BatchOutcome.ok ⟨[⟨"1000".data, "UNKNOWN".data, 0, "No reasoning provided".data, []⟩],
          ⟨1, 0, Rat.divInt 0 10, 80⟩, "completed".data⟩
    ∧ 0 ≤ (MappingResultM.mk "1000".data "UNKNOWN".data 0
        "No reasoning provided".data []).confidence_score :=
  ⟨by decide,
    claim1_amended (fun _ => ChatOutcome.ok "hello".data)
      [⟨"1000".data, "Cash".data, none, none⟩] 80
      ⟨[⟨"1000".data, "UNKNOWN".data, 0, "No reasoning provided".data, []⟩],
        ⟨1, 0, Rat.divInt 0 10, 80⟩, "completed".data⟩
      (by decide)
      ⟨"1000".data, "UNKNOWN".data, 0, "No reasoning provided".data, []⟩
      (List.mem_singleton.mpr rfl)⟩

/-! ## Claim C2 -/

/-- C2, counterexample: on a timeout the code sleeps `2 ** attempt` seconds
(1 s, then 2 s), not `base * 2^attempt` with base = 2 s.  With a simulated
upstream that times out twice and then succeeds, the recorded sleeps are
`[1, 2]`, while the claim demands `2 * 2^0 = 2` and `2 * 2^1 = 4`. -/
theorem claim2_counterexample :
    ccRun (fun i => if i < 2 then UpstreamResp.timeout else .http 200 ["ok".data] []) 3
        = ⟨.ok "ok".data, 3, [1, 2]⟩
      ∧ (1 : Nat) ≠ 2 * 2 ^ 0 ∧ (2 : Nat) ≠ 2 * 2 ^ 1 := by
  decide

/-! ## Claim C6 -/

/-- C6: a well-formed 200 response whose body has no generated content makes
the client fail at once with the wrapped "No content in Claude response"
error — one attempt, no sleep — no matter how many retries remain.  (The
`raise` is caught by the blanket handler, whose message test
"overloaded"/"529" does not match, so it re-raises without retrying.) -/
theorem claim6_no_content (up : Nat → UpstreamResp) (maxR : Nat) (errText : List Char)
    (hm : 1 ≤ maxR) (h0 : up 0 = .http 200 [] errText) :
    ccRun up maxR = ⟨.fail (wrapFail noContentMsg), 1, []⟩ := by
  cases maxR with
  | zero => omega
  | succ rem =>
    have hretry : excRetryable noContentMsg = false := by decide
    simp [ccRun, ccGo, h0, hretry]

/-- Witness for C6 at a concrete upstream with two retries remaining. -/
theorem claim6_witness :
    ccRun (fun _ => UpstreamResp.http 200 [] "ok".data) 3
      = ⟨.fail (wrapFail noContentMsg), 1, []⟩ :=
  claim6_no_content (fun _ => UpstreamResp.http 200 [] "ok".data) 3 "ok".data
    (by decide) rfl

/-! ## Retryability of `f"Claude API error: {status}"` messages

The blanket handler retries when the exception text contains "overloaded"
(case-folded) or "529".  For an HTTP status (a three-digit number) other than
529 neither can occur in `f"Claude API error: {status}"`. -/

theorem pyIsDigit_digitChar10 (m : Nat) : pyIsDigit (digitChar10 m) = true := by
  unfold digitChar10
  split <;> decide

theorem natDigitsF_all_digits :
    ∀ (fuel n : Nat) (c : Char), c ∈ natDigitsF fuel n → pyIsDigit c = true := by
  intro fuel
  induction fuel with
  | zero => intro n c hc; simp [natDigitsF] at hc
  | succ f ih =>
    intro n c hc
    simp only [natDigitsF] at hc
    by_cases h : n < 10
    · rw [if_pos h] at hc
      rcases List.mem_singleton.1 hc with rfl
      exact pyIsDigit_digitChar10 n
    · rw [if_neg h] at hc
      rcases List.mem_append.1 hc with h' | h'
      · exact ih _ c h'
      · rcases List.mem_singleton.1 h' with rfl
        exact pyIsDigit_digitChar10 (n % 10)

theorem digitsToNat_append (l : List Char) (d : Char) :
    digitsToNat (l ++ [d]) = 10 * digitsToNat l + (d.toNat - 48) := by
  simp [digitsToNat, List.foldl_append, Nat.mul_comm]

theorem digitChar10_val (m : Nat) (h : m < 10) : (digitChar10 m).toNat - 48 = m := by
  interval_cases m <;> rfl

theorem natDigitsF_spec : ∀ (fuel n : Nat), n < fuel → digitsToNat (natDigitsF fuel n) = n := by
  intro fuel
  induction fuel with
  | zero => intro n h; omega
  | succ f ih =>
    intro n h
    simp only [natDigitsF]
    by_cases h10 : n < 10
    · rw [if_pos h10]
      show digitsToNat [digitChar10 n] = n
      simp [digitsToNat, digitChar10_val n h10]
    · rw [if_neg h10]
      rw [digitsToNat_append, ih (n / 10) (by omega), digitChar10_val (n % 10) (Nat.mod_lt n (by omega))]
      omega

theorem digitsToNat_natDigits (n : Nat) : digitsToNat (natDigits n) = n :=
  natDigitsF_spec (n + 1) n (Nat.lt_succ_self n)

theorem natDigitsF_len_le :
    ∀ (fuel n k : Nat), n < 10 ^ k → 1 ≤ k → (natDigitsF fuel n).length ≤ k := by
  intro fuel
  induction fuel with
  | zero => intro n k _ _; simp [natDigitsF]
  | succ f ih =>
    intro n k hk h1
    simp only [natDigitsF]
    by_cases h10 : n < 10
    · rw [if_pos h10]; simpa using h1
    · rw [if_neg h10]
      have hk2 : 2 ≤ k := by
        by_contra hlt
        have : k = 1 := by omega
        subst this
        simp at hk
        omega
      have hdiv : n / 10 < 10 ^ (k - 1) := by
        rw [Nat.div_lt_iff_lt_mul (by omega)]
        calc n < 10 ^ k := hk
        _ = 10 ^ (k - 1) * 10 := by
              rw [← Nat.pow_succ]
              congr 1
              omega
      have := ih (n / 10) (k - 1) hdiv (by omega)
      simp only [List.length_append, List.length_cons, List.length_nil]
      omega

theorem containsSub_length (l n : List Char) (h : containsSub l n = true) :
    n.length ≤ l.length := by
  induction l with
  | nil =>
    simp [containsSub, List.isEmpty_iff] at h
    simp [h]
  | cons c t ih =>
    simp only [containsSub, Bool.or_eq_true] at h
    rcases h with h | h
    · exact (List.isPrefixOf_iff_prefix.1 h).length_le
    · exact le_trans (ih h) (by simp)

theorem containsSub_eq_of_length (l n : List Char) (h : containsSub l n = true)
    (hlen : l.length = n.length) : l = n := by
  cases l with
  | nil =>
    simp [containsSub, List.isEmpty_iff] at h
    rw [h]
  | cons c t =>
    simp only [containsSub, Bool.or_eq_true] at h
    rcases h with h | h
    · exact ((List.isPrefixOf_iff_prefix.1 h).eq_of_length hlen.symm).symm
    · have := containsSub_length t n h
      simp at hlen
      omega

theorem lowerChar_digit (c : Char) (h : pyIsDigit c = true) : lowerChar c = c := by
  unfold lowerChar
  split <;> simp_all +decide [pyIsDigit]

theorem containsSub_digits_overloaded (l : List Char)
    (h : ∀ c ∈ l, pyIsDigit c = true) :
    containsSub l "overloaded".data = false := by
  induction l with
  | nil => rfl
  | cons c t ih =>
    have hc : pyIsDigit c = true := h c (List.mem_cons_self c t)
    have hco : ('o' == c) = false := by
      by_contra hbe
      have : 'o' = c := by
        have := Bool.not_eq_false _ |>.mp hbe
        exact eq_of_beq this
      rw [← this] at hc
      exact absurd hc (by decide)
    simp only [containsSub, Bool.or_eq_false_iff]
    constructor
    · show ("overloaded".data.isPrefixOf (c :: t)) = false
      simp [List.isPrefixOf, hco]
    · exact ih (fun c' hc' => h c' (List.mem_cons_of_mem c hc'))

/-- For any status below 1000 other than 529, the blanket-handler retry test
is false on `f"Claude API error: {status}"`. -/
theorem apiErr_not_retryable (s : Nat) (h1 : s < 1000) (h2 : s ≠ 529) :
    excRetryable (apiErrMsg s) = false := by
  have hdig : ∀ c ∈ natDigits s, pyIsDigit c = true :=
    fun c hc => natDigitsF_all_digits (s + 1) s c hc
  have hlow : lowerList (natDigits s) = natDigits s := by
    unfold lowerList
    exact List.map_congr_left (fun c hc => lowerChar_digit c (hdig c hc)) |>.trans (List.map_id _)
  have hover : containsSub (lowerList (apiErrMsg s)) "overloaded".data = false := by
    unfold apiErrMsg lowerList
    rw [List.map_append]
    have : ("Claude API error: ".data.map lowerChar) = "claude api error: ".data := by decide
    rw [this, show (natDigits s).map lowerChar = lowerList (natDigits s) from rfl, hlow]
    simp [containsSub, List.isPrefixOf, containsSub_digits_overloaded (natDigits s) hdig]
  have h529 : containsSub (apiErrMsg s) "529".data = false := by
    unfold apiErrMsg
    have hds : containsSub (natDigits s) "529".data = false := by
      by_contra hcon
      have hcon' : containsSub (natDigits s) "529".data = true := by
        revert hcon
        cases containsSub (natDigits s) "529".data <;> simp
      have hlen3 : (natDigits s).length ≤ 3 :=
        natDigitsF_len_le (s + 1) s 3 (by omega) (by omega)
      have hlen : (natDigits s).length = 3 := by
        have := containsSub_length _ _ hcon'
        simp at this
        omega
      have heq : natDigits s = "529".data :=
        containsSub_eq_of_length _ _ hcon' (by rw [hlen]; rfl)
      have : s = 529 := by
        have h5 := digitsToNat_natDigits s
        rw [heq] at h5
        simpa using h5.symm
      exact h2 this
    simp [containsSub, List.isPrefixOf, hds]
  unfold excRetryable
  rw [hover, h529]
  rfl

/-! ## Stepping lemmas for the retry loop -/

/-- One transient attempt (529 or timeout) with a retry remaining: the loop
sleeps the source's backoff for that attempt and continues. -/
theorem ccGo_step_transient (up : Nat → UpstreamResp) (maxR rem attempt : Nat)
    (ht : isTransient (up attempt) = true) (hlt : attempt < maxR - 1) :
    ccGo up maxR (rem + 1) attempt =
      ⟨(ccGo up maxR rem (attempt + 1)).result,
       (ccGo up maxR rem (attempt + 1)).attempts,
       transientSleep (up attempt) attempt :: (ccGo up maxR rem (attempt + 1)).sleeps⟩ := by
  cases h : up attempt with
  | timeout =>
    simp [ccGo, h, hlt, transientSleep]
  | http s c e =>
    rw [h] at ht
    simp only [isTransient] at ht
    have hs : s = 529 := by
      have := of_decide_eq_true ht
      exact this
    subst hs
    simp [ccGo, h, hlt, transientSleep]

/-- Running the loop across `cnt` consecutive transient attempts: the trace is
the `cnt` backoff sleeps followed by whatever the rest of the loop does. -/
theorem ccGo_transient_run (up : Nat → UpstreamResp) (maxR : Nat) :
    ∀ (cnt attempt : Nat), attempt + cnt < maxR →
      (∀ j, attempt ≤ j → j < attempt + cnt → isTransient (up j) = true) →
      ccGo up maxR (maxR - attempt) attempt =
        ⟨(ccGo up maxR (maxR - (attempt + cnt)) (attempt + cnt)).result,
         (ccGo up maxR (maxR - (attempt + cnt)) (attempt + cnt)).attempts,
         (List.range' attempt cnt).map (fun j => transientSleep (up j) j)
           ++ (ccGo up maxR (maxR - (attempt + cnt)) (attempt + cnt)).sleeps⟩ := by
  intro cnt
  induction cnt with
  | zero =>
    intro attempt _ _
    simp [List.range']
  | succ n ih =>
    intro attempt hlt htrans
    have h1 : attempt < maxR - 1 := by omega
    have hrem : maxR - attempt = (maxR - (attempt + 1)) + 1 := by omega
    rw [hrem,
      ccGo_step_transient up maxR (maxR - (attempt + 1)) attempt
        (htrans attempt (le_refl _) (by omega)) h1]
    have ih' := ih (attempt + 1) (by omega)
      (fun j hj1 hj2 => htrans j (by omega) (by omega))
    have harith : attempt + 1 + n = attempt + (n + 1) := by omega
    rw [harith] at ih'
    rw [ih']
    simp [List.range']

/-! ## Claim C5 -/

/-- C5: if the upstream answers 529 on every attempt, the client makes exactly
`max_retries` attempts, sleeps `2·2^j` seconds after each non-final attempt,
and fails with the wrapped "Claude API is overloaded" message (the final
`raise` is caught by the blanket handler, which wraps it as
`"Failed to get response from Claude: …"`). -/
theorem claim5_retry_exhaustion (up : Nat → UpstreamResp) (maxR : Nat)
    (hm : 1 ≤ maxR) (h : ∀ j, j < maxR → ∃ c e, up j = .http 529 c e) :
    ccRun up maxR =
      ⟨.fail (wrapFail overloadMsg), maxR,
       (List.range (maxR - 1)).map (fun j => 2 ^ j * 2)⟩ := by
  have hrun := ccGo_transient_run up maxR (maxR - 1) 0 (by omega)
    (fun j _ hj => by
      obtain ⟨c, e, hj'⟩ := h j (by omega)
      simp [isTransient, hj'])
  have h0 : maxR - 0 = maxR := by omega
  rw [h0] at hrun
  have hzero : 0 + (maxR - 1) = maxR - 1 := by omega
  rw [hzero] at hrun
  have hone : maxR - (maxR - 1) = 1 := by omega
  rw [hone] at hrun
  obtain ⟨c, e, hlast⟩ := h (maxR - 1) (by omega)
  have hbase : ccGo up maxR 1 (maxR - 1) = ⟨.fail (wrapFail overloadMsg), maxR, []⟩ := by
    have : ¬(maxR - 1 < maxR - 1) := by omega
    simp [ccGo, hlast, this]
    omega
  rw [hbase] at hrun
  unfold ccRun
  rw [hrun]
  simp only [List.append_nil]
  congr 1
  rw [List.range_eq_range']
  exact List.map_congr_left (fun j hj => by
    obtain ⟨c', e', hj'⟩ := h j (by
      have := List.mem_range'_1.1 hj
      omega)
    simp [hj', transientSleep])

/-- Witness for C5 at the default `max_retries = 3`: attempts 3, sleeps 2 s
then 4 s, wrapped overload failure. -/
theorem claim5_witness :
    ccRun (fun _ => UpstreamResp.http 529 [] "busy".data) 3 =
      ⟨.fail (wrapFail overloadMsg), 3, (List.range 2).map (fun j => 2 ^ j * 2)⟩ :=
  claim5_retry_exhaustion (fun _ => UpstreamResp.http 529 [] "busy".data) 3
    (by decide) (fun j _ => ⟨[], "busy".data, rfl⟩)

/-- C2, amended: on a 529 with a retry remaining the client waits
`(2^i)·2` seconds before attempt `i+1`, but on a timeout it waits only `2^i`
seconds (base 1 s, not 2 s); on any other HTTP status (a three-digit code
other than 200/529) it does not retry at all — it fails on that attempt. -/
theorem claim2_amended (up : Nat → UpstreamResp) (maxR : Nat) :
    (∀ k, k + 1 < maxR → (∀ j, j ≤ k → isTransient (up j) = true) →
        ∃ rest, (ccRun up maxR).sleeps
            = (List.range (k + 1)).map (fun j => transientSleep (up j) j) ++ rest)
    ∧ (∀ k s content err, k < maxR →
        (∀ j, j < k → isTransient (up j) = true) →
        up k = .http s content err → s ≠ 200 → s ≠ 529 → s < 1000 →
        (ccRun up maxR).attempts = k + 1
          ∧ (ccRun up maxR).sleeps.length = k
          ∧ (ccRun up maxR).result = .fail (wrapFail (apiErrMsg s))) := by
  constructor
  · intro k hk htrans
    have hrun := ccGo_transient_run up maxR (k + 1) 0 (by omega)
      (fun j _ hj => htrans j (by omega))
    have h0 : maxR - 0 = maxR := by omega
    rw [h0] at hrun
    have hz : 0 + (k + 1) = k + 1 := by omega
    rw [hz] at hrun
    unfold ccRun
    rw [hrun]
    refine ⟨(ccGo up maxR (maxR - (k + 1)) (k + 1)).sleeps, ?_⟩
    simp [List.range_eq_range']
  · intro k s content err hk htrans hup hs200 hs529 hs1000
    have hrun := ccGo_transient_run up maxR k 0 (by omega)
      (fun j _ hj => htrans j (by omega))
    have h0 : maxR - 0 = maxR := by omega
    rw [h0] at hrun
    have hz : 0 + k = k := by omega
    rw [hz] at hrun
    have hterm : ccGo up maxR (maxR - k) k = ⟨.fail (wrapFail (apiErrMsg s)), k + 1, []⟩ := by
      have hd : maxR - k = (maxR - k - 1) + 1 := by omega
      rw [hd]
      have hret := apiErr_not_retryable s hs1000 hs529
      simp [ccGo, hup, hs200, hs529, hret]
    rw [hterm] at hrun
    unfold ccRun
    rw [hrun]
    refine ⟨rfl, ?_, rfl⟩
    simp

/-- Witness for C2 (amended): a 529 then a timeout then success sleeps 2 s
then 2 s; a 503 on the first attempt fails immediately with one attempt. -/
theorem claim2_witness :
    (∃ rest, (ccRun (fun i => if i = 0 then UpstreamResp.http 529 [] []
          else if i = 1 then UpstreamResp.timeout
          else UpstreamResp.http 200 ["ok".data] []) 4).sleeps
        = (List.range 2).map (fun j => transientSleep
            ((fun i => if i = 0 then UpstreamResp.http 529 [] []
              else if i = 1 then UpstreamResp.timeout
              else UpstreamResp.http 200 ["ok".data] []) j) j) ++ rest)
    ∧ ((ccRun (fun _ => UpstreamResp.http 503 [] []) 3).attempts = 1
        ∧ (ccRun (fun _ => UpstreamResp.http 503 [] []) 3).sleeps.length = 0
        ∧ (ccRun (fun _ => UpstreamResp.http 503 [] []) 3).result
            = .fail (wrapFail (apiErrMsg 503))) :=
  ⟨(claim2_amended (fun i => if i = 0 then UpstreamResp.http 529 [] []
      else if i = 1 then UpstreamResp.timeout
      else UpstreamResp.http 200 ["ok".data] []) 4).1 1 (by decide)
      (fun j hj => by interval_cases j <;> decide),
   (claim2_amended (fun _ => UpstreamResp.http 503 [] []) 3).2 0 503 [] []
      (by decide) (fun j hj => by omega) rfl (by decide) (by decide) (by decide)⟩

/-! ## Lemmas about search failure and the alternatives filter -/

/-- If the label does not occur (case-insensitively) anywhere in the text, the
search fails, whatever the tail pattern. -/
theorem reSearch_none_of_not_containsCI (label : List Char)
    (t : List Char → Option (List Char)) :
    ∀ s, containsCI label s = false → reSearch label t s = none := by
  intro s
  induction s with
  | nil => intro _; rfl
  | cons c cs ih =>
    intro h
    simp only [containsCI, Bool.or_eq_false_iff] at h
    obtain ⟨h1, h2⟩ := h
    have hsp : stripPrefixCI label (c :: cs) = none := by
      unfold isPrefixCI at h1
      cases hx : stripPrefixCI label (c :: cs) with
      | none => rfl
      | some r => rw [hx] at h1; simp at h1
    simp only [reSearch, hsp]
    exact ih h2

/-- A non-whitespace member survives `dropWhile pyIsSpace`. -/
theorem mem_dropWhile_of_mem (p : Char → Bool) (c : Char) :
    ∀ l : List Char, c ∈ l → p c = false → c ∈ l.dropWhile p := by
  intro l
  induction l with
  | nil => intro h _; simp at h
  | cons x xs ih =>
    intro hmem hp
    rw [List.dropWhile_cons]
    by_cases hx : p x = true
    · rw [if_pos hx]
      rcases List.mem_cons.1 hmem with rfl | h
      · rw [hp] at hx; cases hx
      · exact ih h hp
    · rw [if_neg hx]
      exact hmem

/-- A non-whitespace member survives `str.strip()`. -/
theorem mem_pyStrip_of_mem {c : Char} {l : List Char}
    (h : c ∈ l) (hp : pyIsSpace c = false) : c ∈ pyStrip l := by
  unfold pyStrip
  have h1 := mem_dropWhile_of_mem pyIsSpace c l h hp
  have h2 := List.mem_reverse.2 h1
  have h3 := mem_dropWhile_of_mem pyIsSpace c _ h2 hp
  exact List.mem_reverse.2 h3

/-- If `str.strip()` gives the empty string, the input was all whitespace. -/
theorem all_space_of_pyStrip_nil {l : List Char} (h : pyStrip l = []) :
    ∀ c ∈ l, pyIsSpace c = true := by
  intro c hc
  by_contra hn
  have hfalse : pyIsSpace c = false := by
    revert hn; cases pyIsSpace c <;> simp
  have := mem_pyStrip_of_mem hc hfalse
  rw [h] at this
  simp at this

/-- `split(',')` on a comma-free string is the singleton list. -/
theorem splitComma_no_comma :
    ∀ l : List Char, (∀ c ∈ l, ¬c = ',') → splitComma l = [l] := by
  intro l
  induction l with
  | nil => intro _; rfl
  | cons c cs ih =>
    intro h
    have hc : ¬c = ',' := h c (List.mem_cons_self c cs)
    have hrec := ih (fun c' h' => h c' (List.mem_cons_of_mem c h'))
    simp only [splitComma, if_neg hc, hrec]

/-! ## Claim C3 -/

/-- C3: the parser always returns a record (it is a total function by
construction) and degrades missing structure to defaults: no `MAPPING:`
occurrence → `"UNKNOWN"`; no `CONFIDENCE:` → `0`; no `REASONING:` → the
placeholder; no `ALTERNATIVES:` → `[]`; an `ALTERNATIVES` value that strips to
`"none"` (case-insensitively) or to the empty string → `[]`; and no element of
the returned alternatives is ever empty or the `"none"` placeholder. -/
theorem claim3_parser_defaults (s : List Char) :
    (containsCI mappingLabelL s = false →
        (parse_claude_response s).mapping = "UNKNOWN".data)
    ∧ (containsCI confidenceLabelL s = false →
        (parse_claude_response s).confidence = 0)
    ∧ (containsCI reasoningLabelL s = false →
        (parse_claude_response s).reasoning = "No reasoning provided".data)
    ∧ (containsCI altLabelL s = false →
        (parse_claude_response s).alternatives = [])
    ∧ (∀ g, reSearch altLabelL matchValueTail s = some g →
        lowerList (pyStrip g) = "none".data →
        (parse_claude_response s).alternatives = [])
    ∧ (∀ g, reSearch altLabelL matchValueTail s = some g →
        pyStrip g = [] →
        (parse_claude_response s).alternatives = [])
    ∧ (∀ a ∈ (parse_claude_response s).alternatives,
        a ≠ [] ∧ lowerList a ≠ "none".data) := by
  refine ⟨?_, ?_, ?_, ?_, ?_, ?_, ?_⟩
  · intro h
    have := reSearch_none_of_not_containsCI mappingLabelL matchValueTail s h
    simp [parse_claude_response, this]
  · intro h
    have := reSearch_none_of_not_containsCI confidenceLabelL matchDigitsTail s h
    simp [parse_claude_response, this]
  · intro h
    have := reSearch_none_of_not_containsCI reasoningLabelL matchReasoningTail s h
    simp [parse_claude_response, this]
  · intro h
    have := reSearch_none_of_not_containsCI altLabelL matchValueTail s h
    simp [parse_claude_response, this]
  · intro g hg hnone
    have hcomma : ∀ c ∈ g, ¬c = ',' := by
      intro c hc hceq
      subst hceq
      have hmem : ',' ∈ pyStrip g := mem_pyStrip_of_mem hc (by decide)
      have : ',' ∈ lowerList (pyStrip g) :=
        List.mem_map.2 ⟨',', hmem, rfl⟩
      rw [hnone] at this
      simp at this
    simp only [parse_claude_response, hg]
    unfold altProcess
    rw [splitComma_no_comma g hcomma]
    simp [hnone]
  · intro g hg hnil
    have hcomma : ∀ c ∈ g, ¬c = ',' := by
      intro c hc hceq
      subst hceq
      have := all_space_of_pyStrip_nil hnil ',' hc
      exact absurd this (by decide)
    simp only [parse_claude_response, hg]
    unfold altProcess
    rw [splitComma_no_comma g hcomma]
    simp [hnil]
  · intro a ha
    simp only [parse_claude_response] at ha
    rcases hg : reSearch altLabelL matchValueTail s with _ | g
    · rw [hg] at ha; simp at ha
    · rw [hg] at ha
      simp only at ha
      unfold altProcess at ha
      have := List.of_mem_filter ha
      simp only [Bool.and_eq_true, Bool.not_eq_true', bne_iff_ne, ne_eq] at this
      obtain ⟨h1, h2⟩ := this
      constructor
      · intro hnil
        rw [hnil] at h1
        simp at h1
      · exact h2

/-- Witness for C3: labels absent in one input; a `"None"`-valued
alternatives line in another; an explicit alternatives list in a third. -/
theorem claim3_witness :
    (parse_claude_response "no labels here".data).mapping = "UNKNOWN".data
    ∧ (parse_claude_response "no labels here".data).confidence = 0
    ∧ (parse_claude_response "no labels here".data).reasoning = "No reasoning provided".data
    ∧ (parse_claude_response "no labels here".data).alternatives = []
    ∧ (parse_claude_response "ALTERNATIVES: NONE".data).alternatives = []
    ∧ (∀ a ∈ (parse_claude_response "ALTERNATIVES: 1000, none, 2000".data).alternatives,
        a ≠ [] ∧ lowerList a ≠ "none".data) :=
  ⟨(claim3_parser_defaults "no labels here".data).1 (by decide),
   (claim3_parser_defaults "no labels here".data).2.1 (by decide),
   (claim3_parser_defaults "no labels here".data).2.2.1 (by decide),
   (claim3_parser_defaults "no labels here".data).2.2.2.1 (by decide),
   (claim3_parser_defaults "ALTERNATIVES: NONE".data).2.2.2.2.1 "NONE".data
     (by decide) (by decide),
   (claim3_parser_defaults "ALTERNATIVES: 1000, none, 2000".data).2.2.2.2.2.2⟩

/-! ## The orchestrator loop -/

theorem resultsFrom_length (texts : Nat → List Char) :
    ∀ (i : Nat) (l : List AccountData), (resultsFrom texts i l).length = l.length := by
  intro i l
  induction l generalizing i with
  | nil => rfl
  | cons src rest ih => simp [resultsFrom, ih]

/-- When every remaining account's client call succeeds, the loop returns one
result per account, in order, appending the same list to the session. -/
theorem mapLoop_all_ok (chat : Nat → ChatOutcome) (texts : Nat → List Char) :
    ∀ (sources : List AccountData) (i : Nat) (accRes : List MappingResultM)
      (sess : SessionRec),
      (∀ j, j < sources.length → chat (i + j) = .ok (texts (i + j))) →
      sess.processed_accounts = i →
      mapLoop chat sources i accRes sess =
        .ok (accRes ++ resultsFrom texts i sources)
          { sess with processed_accounts := i + sources.length,
                      results := sess.results ++ resultsFrom texts i sources } := by
  intro sources
  induction sources with
  | nil =>
    intro i accRes sess _ hp
    simp [mapLoop, resultsFrom, ← hp]
  | cons src rest ih =>
    intro i accRes sess h hp
    have h0 : chat i = .ok (texts i) := by
      have := h 0 (by simp)
      simpa using this
    simp only [mapLoop, h0, map_account]
    rw [ih (i + 1) (accRes ++ [mkResult src (parse_claude_response (texts i))])
      _ (fun j hj => by
          have := h (j + 1) (by simpa using Nat.succ_lt_succ hj)
          have harith : i + (j + 1) = i + 1 + j := by omega
          rw [harith] at this
          exact this)
      (by simp)]
    simp only [resultsFrom]
    congr 1
    · simp
    · simp only [List.length_cons]
      congr 1
      · omega
      · simp

/-- If accounts `0..k-1` succeed and account `k` fails, the loop aborts with
the wrapped `HTTPException(500, "API call failed: …")` and the session keeps
exactly the `k` results already computed. -/
theorem mapLoop_first_fail (chat : Nat → ChatOutcome) (texts : Nat → List Char)
    (msg : List Char) :
    ∀ (k : Nat) (sources : List AccountData) (i : Nat)
      (accRes : List MappingResultM) (sess : SessionRec),
      k < sources.length →
      (∀ j, j < k → chat (i + j) = .ok (texts (i + j))) →
      chat (i + k) = .fail msg →
      sess.processed_accounts = i →
      mapLoop chat sources i accRes sess =
        .fail ⟨500, "API call failed: ".data ++ msg⟩
          { sess with processed_accounts := i + k,
                      results := sess.results ++ resultsFrom texts i (sources.take k) } := by
  intro k
  induction k with
  | zero =>
    intro sources i accRes sess hk _ hfail hp
    cases sources with
    | nil => simp at hk
    | cons src rest =>
      subst hp
      have h0 : chat sess.processed_accounts = .fail msg := by simpa using hfail
      simp [mapLoop, h0, map_account, resultsFrom]
  | succ n ih =>
    intro sources i accRes sess hk hok hfail hp
    cases sources with
    | nil => simp at hk
    | cons src rest =>
      have h0 : chat i = .ok (texts i) := by
        have := hok 0 (by omega)
        simpa using this
      simp only [mapLoop, h0, map_account]
      rw [ih rest (i + 1) (accRes ++ [mkResult src (parse_claude_response (texts i))])
        _ (by simpa using hk)
        (fun j hj => by
          have := hok (j + 1) (by omega)
          have harith : i + (j + 1) = i + 1 + j := by omega
          rw [harith] at this
          exact this)
        (by
          have harith : i + (n + 1) = i + 1 + n := by omega
          rw [harith] at hfail
          exact hfail)
        (by simp)]
      simp only [List.take_succ_cons, resultsFrom]
      have harith : i + 1 + n = i + (n + 1) := by omega
      rw [harith]
      simp [List.append_assoc]

/-! ## Claim C4 -/

/-- C4, counterexample: the summary's `average_confidence` is
`round(mean, 1)`, not the arithmetic mean itself.  For parsed confidences
90, 85, 84 the mean is `259/3 = 86.333…` but the stored value is `86.3`. -/
theorem claim4_counterexample :
    (match (map_accounts
        (fun i => if i = 0 then ChatOutcome.ok "CONFIDENCE: 90".data
          else if i = 1 then ChatOutcome.ok "CONFIDENCE: 85".data
          else ChatOutcome.ok "CONFIDENCE: 84".data)
        [⟨"a".data, [], none, none⟩, ⟨"b".data, [], none, none⟩, ⟨"c".data, [], none, none⟩]
        80).fst with
      | .ok r => some (r.results.map (fun res => res.confidence_score),
          r.summary.average_confidence)
      | .fail _ => none) = some ([90, 85, 84], Rat.divInt 863 10)
    ∧ Rat.divInt 863 10 ≠ Rat.divInt (90 + 85 + 84) 3 := by
  decide

/-- C4, amended: for a batch in which every per-account call succeeds, the
orchestrator returns one `MappingResult` per source account in input order
(`resultsFrom`), with `total_mappings` the number of accounts,
`high_confidence_mappings` the number of parsed confidences at or above the
threshold, and `average_confidence` the arithmetic mean of the parsed
confidences *rounded to one decimal place* (0 if the batch is empty). -/
theorem claim4_amended (chat : Nat → ChatOutcome) (texts : Nat → List Char)
    (sources : List AccountData) (threshold : Int)
    (h : ∀ j, j < sources.length → chat j = .ok (texts j)) :
    (resultsFrom texts 0 sources).length = sources.length
    ∧ (map_accounts chat sources threshold).fst =
      .ok { results := resultsFrom texts 0 sources,
            summary :=
              { total_mappings := sources.length,
                high_confidence_mappings :=
                  ((resultsFrom texts 0 sources).filter
                    (fun r => threshold ≤ r.confidence_score)).length,
                average_confidence :=
                  pyRound1 (if sources.length = 0 then 0
                    else Rat.divInt (sumConf (resultsFrom texts 0 sources))
                      (sources.length : Int)),
                confidence_threshold := threshold },
            status := "completed".data } := by
  refine ⟨resultsFrom_length texts 0 sources, ?_⟩
  simp only [map_accounts]
  rw [mapLoop_all_ok chat texts sources 0 []
    { status := "processing".data, total_accounts := sources.length,
      processed_accounts := 0, results := [], summary := none, error := none }
    (fun j hj => by simpa using h j hj) rfl]
  simp only [List.nil_append]
  rw [resultsFrom_length texts 0 sources]

/-- Witness for C4 (amended) on a concrete 3-account, 2-target-shaped batch. -/
theorem claim4_witness :
    (resultsFrom (fun i => if i = 0 then "MAPPING: 101000\nCONFIDENCE: 90".data
        else if i = 1 then "MAPPING: 103000\nCONFIDENCE: 85".data
        else "MAPPING: 101000\nCONFIDENCE: 84".data) 0
      [⟨"a".data, [], none, none⟩, ⟨"b".data, [], none, none⟩,
        ⟨"c".data, [], none, none⟩]).length = 3
    ∧ (map_accounts
        (fun i => if i = 0 then ChatOutcome.ok "MAPPING: 101000\nCONFIDENCE: 90".data
          else if i = 1 then ChatOutcome.ok "MAPPING: 103000\nCONFIDENCE: 85".data
          else ChatOutcome.ok "MAPPING: 101000\nCONFIDENCE: 84".data)
        [⟨"a".data, [], none, none⟩, ⟨"b".data, [], none, none⟩,
          ⟨"c".data, [], none, none⟩] 80).fst =
      .ok { results := resultsFrom
              (fun i => if i = 0 then "MAPPING: 101000\nCONFIDENCE: 90".data
                else if i = 1 then "MAPPING: 103000\nCONFIDENCE: 85".data
                else "MAPPING: 101000\nCONFIDENCE: 84".data) 0
              [⟨"a".data, [], none, none⟩, ⟨"b".data, [], none, none⟩,
                ⟨"c".data, [], none, none⟩],
            summary :=
              { total_mappings := 3,
                high_confidence_mappings :=
                  ((resultsFrom
                    (fun i => if i = 0 then "MAPPING: 101000\nCONFIDENCE: 90".data
                      else if i = 1 then "MAPPING: 103000\nCONFIDENCE: 85".data
                      else "MAPPING: 101000\nCONFIDENCE: 84".data) 0
                    [⟨"a".data, [], none, none⟩, ⟨"b".data, [], none, none⟩,
                      ⟨"c".data, [], none, none⟩]).filter
                    (fun r => (80 : Int) ≤ r.confidence_score)).length,
                average_confidence :=
                  pyRound1 (Rat.divInt (sumConf (resultsFrom
                    (fun i => if i = 0 then "MAPPING: 101000\nCONFIDENCE: 90".data
                      else if i = 1 then "MAPPING: 103000\nCONFIDENCE: 85".data
                      else "MAPPING: 101000\nCONFIDENCE: 84".data) 0
                    [⟨"a".data, [], none, none⟩, ⟨"b".data, [], none, none⟩,
                      ⟨"c".data, [], none, none⟩])) 3),
                confidence_threshold := 80 },
            status := "completed".data } := by
  have h := claim4_amended
    (fun i => if i = 0 then ChatOutcome.ok "MAPPING: 101000\nCONFIDENCE: 90".data
      else if i = 1 then ChatOutcome.ok "MAPPING: 103000\nCONFIDENCE: 85".data
      else ChatOutcome.ok "MAPPING: 101000\nCONFIDENCE: 84".data)
    (fun i => if i = 0 then "MAPPING: 101000\nCONFIDENCE: 90".data
      else if i = 1 then "MAPPING: 103000\nCONFIDENCE: 85".data
      else "MAPPING: 101000\nCONFIDENCE: 84".data)
    [⟨"a".data, [], none, none⟩, ⟨"b".data, [], none, none⟩, ⟨"c".data, [], none, none⟩]
    80 (fun j hj => by
      have hj3 : j < 3 := by simpa using hj
      interval_cases j <;> rfl)
  simpa using h

/-! ## Claim C8 -/

/-- C8: if the client call for any single account fails (as it does when
retries are exhausted), the whole batch fails with the
`HTTPException(500, "Mapping process failed: …")` raised by `map_accounts`,
and no `MappingResult` computed for earlier accounts reaches the caller — the
endpoint's return value is the error alone. -/
theorem claim8_batch_abort (chat : Nat → ChatOutcome) (texts : Nat → List Char)
    (msg : List Char) (sources : List AccountData) (threshold : Int) (k : Nat)
    (hk : k < sources.length)
    (hok : ∀ j, j < k → chat j = .ok (texts j))
    (hfail : chat k = .fail msg) :
    (map_accounts chat sources threshold).fst =
      .fail ⟨500, "Mapping process failed: 500: API call failed: ".data ++ msg⟩ := by
  simp only [map_accounts]
  rw [mapLoop_first_fail chat texts msg k sources 0 []
    { status := "processing".data, total_accounts := sources.length,
      processed_accounts := 0, results := [], summary := none, error := none }
    hk (fun j hj => by simpa using hok j hj) (by simpa using hfail) rfl]
  simp only [httpExcStr]
  congr 1

/-- Witness for C8: the second account's call fails after retry exhaustion;
the batch returns only the error. -/
theorem claim8_witness :
    (map_accounts
      (fun i => if i = 0 then ChatOutcome.ok "CONFIDENCE: 90".data
        else ChatOutcome.fail (wrapFail overloadMsg))
      [⟨"a".data, [], none, none⟩, ⟨"b".data, [], none, none⟩] 80).fst =
    .fail ⟨500, "Mapping process failed: 500: API call failed: ".data
      ++ wrapFail overloadMsg⟩ :=
  claim8_batch_abort
    (fun i => if i = 0 then ChatOutcome.ok "CONFIDENCE: 90".data
      else ChatOutcome.fail (wrapFail overloadMsg))
    (fun _ => "CONFIDENCE: 90".data) (wrapFail overloadMsg)
    [⟨"a".data, [], none, none⟩, ⟨"b".data, [], none, none⟩] 80 1
    (by decide)
    (fun j hj => by
      have : j = 0 := by omega
      subst this
      rfl)
    rfl

/-! ## Claim C10 -/

/-- C10: when a batch fails at account `k`, the session record is not rolled
back: it keeps status `"failed"`, the error string `str(e)`, the `k` results
already computed, and `processed_accounts = k`, and the session-status lookup
returns that record as is. -/
theorem claim10_session_keeps_partial (chat : Nat → ChatOutcome)
    (texts : Nat → List Char) (msg : List Char) (sources : List AccountData)
    (threshold : Int) (k : Nat) (sid : List Char)
    (hk : k < sources.length)
    (hok : ∀ j, j < k → chat j = .ok (texts j))
    (hfail : chat k = .fail msg) :
    get_mapping_status [(sid, (map_accounts chat sources threshold).snd)] sid
        = .ok ((map_accounts chat sources threshold).snd)
    ∧ (map_accounts chat sources threshold).snd.status = "failed".data
    ∧ (map_accounts chat sources threshold).snd.error
        = some ("500: API call failed: ".data ++ msg)
    ∧ (map_accounts chat sources threshold).snd.results
        = resultsFrom texts 0 (sources.take k)
    ∧ (map_accounts chat sources threshold).snd.processed_accounts = k := by
  have hsnd : (map_accounts chat sources threshold).snd =
      { status := "failed".data, total_accounts := sources.length,
        processed_accounts := k, results := resultsFrom texts 0 (sources.take k),
        summary := none,
        error := some ("500: API call failed: ".data ++ msg) } := by
    simp only [map_accounts]
    rw [mapLoop_first_fail chat texts msg k sources 0 []
      { status := "processing".data, total_accounts := sources.length,
        processed_accounts := 0, results := [], summary := none, error := none }
      hk (fun j hj => by simpa using hok j hj) (by simpa using hfail) rfl]
    simp only [httpExcStr]
    rw [show natDigits 500 = "500".data from rfl]
    simp [List.append_assoc]
  refine ⟨?_, ?_, ?_, ?_, ?_⟩
  · simp [get_mapping_status, List.lookup]
  · rw [hsnd]
  · rw [hsnd]
  · rw [hsnd]
  · rw [hsnd]

/-- Witness for C10 on a concrete two-account batch failing at the second
account. -/
theorem claim10_witness :
    get_mapping_status [("sess-1".data,
        (map_accounts
          (fun i => if i = 0 then ChatOutcome.ok "CONFIDENCE: 90".data
            else ChatOutcome.fail (wrapFail overloadMsg))
          [⟨"a".data, [], none, none⟩, ⟨"b".data, [], none, none⟩] 80).snd)]
        "sess-1".data
      = .ok ((map_accounts
          (fun i => if i = 0 then ChatOutcome.ok "CONFIDENCE: 90".data
            else ChatOutcome.fail (wrapFail overloadMsg))
          [⟨"a".data, [], none, none⟩, ⟨"b".data, [], none, none⟩] 80).snd)
    ∧ (map_accounts
        (fun i => if i = 0 then ChatOutcome.ok "CONFIDENCE: 90".data
          else ChatOutcome.fail (wrapFail overloadMsg))
        [⟨"a".data, [], none, none⟩, ⟨"b".data, [], none, none⟩] 80).snd.status
      = "failed".data
    ∧ (map_accounts
        (fun i => if i = 0 then ChatOutcome.ok "CONFIDENCE: 90".data
          else ChatOutcome.fail (wrapFail overloadMsg))
        [⟨"a".data, [], none, none⟩, ⟨"b".data, [], none, none⟩] 80).snd.error
      = some ("500: API call failed: ".data ++ wrapFail overloadMsg)
    ∧ (map_accounts
        (fun i => if i = 0 then ChatOutcome.ok "CONFIDENCE: 90".data
          else ChatOutcome.fail (wrapFail overloadMsg))
        [⟨"a".data, [], none, none⟩, ⟨"b".data, [], none, none⟩] 80).snd.results
      = resultsFrom (fun _ => "CONFIDENCE: 90".data) 0
          ([⟨"a".data, [], none, none⟩, ⟨"b".data, [], none, none⟩].take 1)
    ∧ (map_accounts
        (fun i => if i = 0 then ChatOutcome.ok "CONFIDENCE: 90".data
          else ChatOutcome.fail (wrapFail overloadMsg))
        [⟨"a".data, [], none, none⟩, ⟨"b".data, [], none, none⟩] 80).snd.processed_accounts
      = 1 :=
  claim10_session_keeps_partial
    (fun i => if i = 0 then ChatOutcome.ok "CONFIDENCE: 90".data
      else ChatOutcome.fail (wrapFail overloadMsg))
    (fun _ => "CONFIDENCE: 90".data) (wrapFail overloadMsg)
    [⟨"a".data, [], none, none⟩, ⟨"b".data, [], none, none⟩] 80 1 "sess-1".data
    (by decide)
    (fun j hj => by
      have : j = 0 := by omega
      subst this
      rfl)
    rfl

/-! ## Claim C7: supporting lemmas on takeWhile/dropWhile and clean values -/

theorem takeWhile_all_eq (p : Char → Bool) :
    ∀ l : List Char, (∀ x ∈ l, p x = true) → l.takeWhile p = l := by
  intro l
  induction l with
  | nil => intro _; rfl
  | cons x xs ih =>
    intro h
    rw [List.takeWhile_cons, if_pos (h x (List.mem_cons_self x xs)),
      ih (fun y hy => h y (List.mem_cons_of_mem x hy))]

theorem takeWhile_append_stop (p : Char → Bool) (y : Char) (hy : p y = false) :
    ∀ (xs ys : List Char), (∀ x ∈ xs, p x = true) →
      (xs ++ y :: ys).takeWhile p = xs := by
  intro xs
  induction xs with
  | nil => intro ys _; simp [List.takeWhile_cons, hy]
  | cons x xs' ih =>
    intro ys h
    rw [List.cons_append, List.takeWhile_cons, if_pos (h x (List.mem_cons_self x xs')),
      ih ys (fun z hz => h z (List.mem_cons_of_mem x hz))]

theorem dropWhile_append_stop (p : Char → Bool) (y : Char) (hy : p y = false) :
    ∀ (xs ys : List Char), (∀ x ∈ xs, p x = true) →
      (xs ++ y :: ys).dropWhile p = y :: ys := by
  intro xs
  induction xs with
  | nil => intro ys _; simp [List.dropWhile_cons, hy]
  | cons x xs' ih =>
    intro ys h
    rw [List.cons_append, List.dropWhile_cons, if_pos (h x (List.mem_cons_self x xs')),
      ih ys (fun z hz => h z (List.mem_cons_of_mem x hz))]

theorem dropWhile_head_false (p : Char → Bool) (l : List Char)
    (hne : l ≠ []) (hh : p (l.headD 'x') = false) : l.dropWhile p = l := by
  cases l with
  | nil => exact absurd rfl hne
  | cons x xs =>
    simp only [List.headD] at hh
    rw [List.dropWhile_cons, if_neg (by rw [hh]; exact Bool.false_ne_true)]

/-- Unpacking the `cleanValue` conjunction. -/
theorem cleanValue_spec {v : List Char} (h : cleanValue v = true) :
    v ≠ [] ∧ pyIsSpace (v.headD 'x') = false ∧ pyIsSpace (v.getLastD 'x') = false
      ∧ (∀ c ∈ v, c ≠ '\n') ∧ (∀ c ∈ v, c ≠ ':') := by
  unfold cleanValue at h
  simp only [Bool.and_eq_true, Bool.not_eq_true', List.all_eq_true] at h
  obtain ⟨⟨⟨h1, h2⟩, h3⟩, h4⟩ := h
  refine ⟨?_, h2, h3, ?_, ?_⟩
  · intro hnil
    rw [hnil] at h1
    simp at h1
  · intro c hc
    have := h4 c hc
    simp only [Bool.and_eq_true, Bool.not_eq_true', decide_eq_false_iff_not] at this
    exact this.1
  · intro c hc
    have := h4 c hc
    simp only [Bool.and_eq_true, Bool.not_eq_true', decide_eq_false_iff_not] at this
    exact this.2

theorem headD_append {v w : List Char} (hv : v ≠ []) (x : Char) :
    (v ++ w).headD x = v.headD x := by
  cases v with
  | nil => exact absurd rfl hv
  | cons c cs => rfl

/-- `str.strip()` is the identity on a clean value. -/
theorem pyStrip_clean {v : List Char} (h : cleanValue v = true) : pyStrip v = v := by
  obtain ⟨hne, hh, hl, _, _⟩ := cleanValue_spec h
  unfold pyStrip
  rw [dropWhile_head_false pyIsSpace v hne hh]
  rw [dropWhile_head_false pyIsSpace v.reverse
    (by simpa using hne)
    (by
      rw [List.headD_eq_head?, List.head?_reverse]
      rw [List.getLastD_eq_getLast?] at hl
      exact hl)]
  exact List.reverse_reverse v

/-- `str.strip()` is the identity on `r1 ++ '\n' :: r2` for clean `r1, r2`. -/
theorem pyStrip_clean_two {r1 r2 : List Char}
    (h1 : cleanValue r1 = true) (h2 : cleanValue r2 = true) :
    pyStrip (r1 ++ '\n' :: r2) = r1 ++ '\n' :: r2 := by
  obtain ⟨hne1, hh1, _, _, _⟩ := cleanValue_spec h1
  obtain ⟨hne2, _, hl2, _, _⟩ := cleanValue_spec h2
  have hAne : (r1 ++ '\n' :: r2) ≠ [] := by
    intro hc
    have := congrArg List.length hc
    simp at this
  have hhead : pyIsSpace ((r1 ++ '\n' :: r2).headD 'x') = false := by
    rw [headD_append hne1]
    exact hh1
  have hglast : (r1 ++ '\n' :: r2).getLast? = r2.getLast? := by
    rw [List.getLast?_append_cons]
    cases r2 with
    | nil => exact absurd rfl hne2
    | cons x xs => rw [List.getLast?_cons_cons]
  have hrne : (r1 ++ '\n' :: r2).reverse ≠ [] := by
    simp
  have hrhead : pyIsSpace ((r1 ++ '\n' :: r2).reverse.headD 'x') = false := by
    rw [List.headD_eq_head?, List.head?_reverse, hglast, ← List.getLastD_eq_getLast?]
    exact hl2
  unfold pyStrip
  rw [dropWhile_head_false pyIsSpace _ hAne hhead]
  rw [dropWhile_head_false pyIsSpace _ hrne hrhead]
  exact List.reverse_reverse _

/-! ## Tail-pattern matches on canonical sections -/

/-- `\s*([^\n]+)` right after a label: one space, then a clean value, then a
newline — the group is exactly the value. -/
theorem matchValueTail_clean_line {v : List Char} (h : cleanValue v = true)
    (rest : List Char) :
    matchValueTail (' ' :: (v ++ '\n' :: rest)) = some v := by
  obtain ⟨hne, hh, _, hnl, _⟩ := cleanValue_spec h
  obtain ⟨x, xs, rfl⟩ := List.exists_cons_of_ne_nil hne
  have hx : pyIsSpace x = false := hh
  have hxnl : x ≠ '\n' := hnl x (List.mem_cons_self x xs)
  have htw : (xs ++ '\n' :: rest).takeWhile (fun c => !decide (c = '\n')) = xs :=
    takeWhile_append_stop _ '\n' (by simp) xs rest
      (fun z hz => by simp [hnl z (List.mem_cons_of_mem x hz)])
  simp +decide [matchValueTail, List.dropWhile_cons, List.takeWhile_cons, hx, hxnl, htw]

/-- `\s*([^\n]+)` at the very end of the text: one space then a clean value. -/
theorem matchValueTail_clean_end {v : List Char} (h : cleanValue v = true) :
    matchValueTail (' ' :: v) = some v := by
  obtain ⟨hne, hh, _, hnl, _⟩ := cleanValue_spec h
  obtain ⟨x, xs, rfl⟩ := List.exists_cons_of_ne_nil hne
  have hx : pyIsSpace x = false := hh
  have hxnl : x ≠ '\n' := hnl x (List.mem_cons_self x xs)
  have htw : xs.takeWhile (fun c => !decide (c = '\n')) = xs :=
    takeWhile_all_eq _ xs (fun z hz => by simp [hnl z (List.mem_cons_of_mem x hz)])
  simp +decide [matchValueTail, List.dropWhile_cons, List.takeWhile_cons, hx, hxnl, htw]

/-- `\s*(\d+)` right after `CONFIDENCE:`: one space, the digit string, then a
newline — the group is exactly the digit string. -/
theorem matchDigitsTail_digits {d : List Char} (hne : d ≠ [])
    (hd : ∀ c ∈ d, pyIsDigit c = true) (rest : List Char) :
    matchDigitsTail (' ' :: (d ++ '\n' :: rest)) = some d := by
  obtain ⟨x, xs, rfl⟩ := List.exists_cons_of_ne_nil hne
  have hx : pyIsDigit x = true := hd x (List.mem_cons_self x xs)
  have hxs : pyIsSpace x = false := by
    cases hcsp : pyIsSpace x
    · rfl
    · exfalso
      unfold pyIsSpace at hcsp
      unfold pyIsDigit at hx
      simp only [Bool.or_eq_true, decide_eq_true_eq] at hcsp
      simp only [Bool.and_eq_true, decide_eq_true_eq] at hx
      obtain ⟨hx1, hx2⟩ := hx
      rcases hcsp with ((((h1 | h1) | h1) | h1) | h1) | h1 <;>
        (subst h1; revert hx1 hx2; decide)
  have htw : (xs ++ '\n' :: rest).takeWhile pyIsDigit = xs :=
    takeWhile_append_stop _ '\n' (by decide) xs rest
      (fun z hz => hd z (List.mem_cons_of_mem x hz))
  simp +decide [matchDigitsTail, List.dropWhile_cons, List.takeWhile_cons, hx, hxs, htw]

/-! ## The REASONING group on the canonical text -/

theorem reasoningLoopF_stop (fuel : Nat) (rest : List Char)
    (h : isPrefixCI altLabelL rest = true) :
    reasoningLoopF (fuel + 1) ('\n' :: rest) = [] := by
  simp [reasoningLoopF, h]

theorem reasoningLoopF_line (fuel : Nat) {line : List Char} (rest : List Char)
    (hne : line ≠ []) (hnl : ∀ c ∈ line, c ≠ '\n')
    (hpre : isPrefixCI altLabelL (line ++ '\n' :: rest) = false) :
    reasoningLoopF (fuel + 1) ('\n' :: (line ++ '\n' :: rest)) =
      '\n' :: (line ++ reasoningLoopF fuel ('\n' :: rest)) := by
  obtain ⟨x, xs, rfl⟩ := List.exists_cons_of_ne_nil hne
  have hxnl : x ≠ '\n' := hnl x (List.mem_cons_self x xs)
  have htake : (xs ++ '\n' :: rest).takeWhile (fun c => !decide (c = '\n')) = xs :=
    takeWhile_append_stop _ '\n' (by simp) xs rest
      (fun z hz => by simp [hnl z (List.mem_cons_of_mem x hz)])
  have hdrop : (xs ++ '\n' :: rest).dropWhile (fun c => !decide (c = '\n')) = '\n' :: rest :=
    dropWhile_append_stop _ '\n' (by simp) xs rest
      (fun z hz => by simp [hnl z (List.mem_cons_of_mem x hz)])
  have hpre2 : isPrefixCI altLabelL (x :: (xs ++ '\n' :: rest)) = false := by
    simpa using hpre
  simp +decide [reasoningLoopF, hpre2, List.takeWhile_cons, List.dropWhile_cons,
    hxnl, htake, hdrop]

theorem matchReasoningTail_two_lines {r1 r2 tail : List Char}
    (h1 : cleanValue r1 = true) (h2 : cleanValue r2 = true)
    (hla1 : isPrefixCI altLabelL (r2 ++ '\n' :: tail) = false)
    (hla2 : isPrefixCI altLabelL tail = true) :
    matchReasoningTail (' ' :: (r1 ++ '\n' :: (r2 ++ '\n' :: tail)))
      = some (r1 ++ '\n' :: r2) := by
  obtain ⟨hne1, hh1, _, hnl1, _⟩ := cleanValue_spec h1
  obtain ⟨hne2, _, _, hnl2, _⟩ := cleanValue_spec h2
  obtain ⟨x, xs, rfl⟩ := List.exists_cons_of_ne_nil hne1
  have hx : pyIsSpace x = false := hh1
  have hxnl : x ≠ '\n' := hnl1 x (List.mem_cons_self x xs)
  have htake : (xs ++ '\n' :: (r2 ++ '\n' :: tail)).takeWhile (fun c => !decide (c = '\n')) = xs :=
    takeWhile_append_stop _ '\n' (by simp) xs _
      (fun z hz => by simp [hnl1 z (List.mem_cons_of_mem x hz)])
  have hdrop : (xs ++ '\n' :: (r2 ++ '\n' :: tail)).dropWhile (fun c => !decide (c = '\n'))
      = '\n' :: (r2 ++ '\n' :: tail) :=
    dropWhile_append_stop _ '\n' (by simp) xs _
      (fun z hz => by simp [hnl1 z (List.mem_cons_of_mem x hz)])
  have hloop : reasoningLoop ('\n' :: (r2 ++ '\n' :: tail)) = '\n' :: r2 := by
    unfold reasoningLoop
    have hlen : ('\n' :: (r2 ++ '\n' :: tail)).length
        = (r2 ++ '\n' :: tail).length + 1 := by simp
    rw [hlen]
    rw [reasoningLoopF_line ((r2 ++ '\n' :: tail).length) tail hne2 hnl2 hla1]
    have hlen2 : (r2 ++ '\n' :: tail).length = (r2.length + tail.length) + 1 := by
      simp
      omega
    rw [hlen2, reasoningLoopF_stop _ tail hla2, List.append_nil]
  simp +decide [matchReasoningTail, List.dropWhile_cons, List.takeWhile_cons,
    hx, hxnl, htake, hdrop, hloop]

/-! ## Where a case-insensitive label can match -/

/-- A successful case-insensitive prefix match relates every label character
to the text character at the same offset. -/
theorem stripPrefixCI_get :
    ∀ (label s r : List Char), stripPrefixCI label s = some r →
      ∀ (n : Nat) (c : Char), label[n]? = some c →
        ∃ c', s[n]? = some c' ∧ ciEq c c' = true := by
  intro label
  induction label with
  | nil =>
    intro s r _ n c hc
    simp at hc
  | cons l ls ih =>
    intro s r hs n c hc
    cases s with
    | nil => simp [stripPrefixCI] at hs
    | cons x xs =>
      simp only [stripPrefixCI] at hs
      by_cases hci : ciEq l x = true
      · rw [if_pos hci] at hs
        cases n with
        | zero =>
          simp only [List.getElem?_cons_zero, Option.some.injEq] at hc
          subst hc
          exact ⟨x, by simp, hci⟩
        | succ n' =>
          simp only [List.getElem?_cons_succ] at hc ⊢
          exact ih xs r hs n' c hc
      · rw [if_neg hci] at hs
        cases hs

/-- `lowerChar` either fixes a character or sends it to a lowercase letter. -/
theorem lowerChar_cases (c : Char) :
    lowerChar c = c ∨ lowerChar c ∈ "abcdefghijklmnopqrstuvwxyz".data := by
  unfold lowerChar
  split <;> simp +decide

/-- Only `':'` is case-equivalent to `':'`. -/
theorem ciEq_colon {c : Char} (h : ciEq ':' c = true) : c = ':' := by
  have h0 : lowerChar ':' = lowerChar c := eq_of_beq h
  have h' : (':' : Char) = lowerChar c := h0
  rcases lowerChar_cases c with hc | hc
  · rw [hc] at h'
    exact h'.symm
  · rw [← h'] at hc
    exact absurd hc (by decide)

/-- If the label matches nowhere inside `pre` (at any offset, including
matches that would run past `pre` into `rest`), the search skips to `rest`. -/
theorem reSearch_skip (label : List Char) (t : List Char → Option (List Char)) :
    ∀ (pre rest : List Char),
      (∀ i, i < pre.length → stripPrefixCI label ((pre ++ rest).drop i) = none) →
      reSearch label t (pre ++ rest) = reSearch label t rest := by
  intro pre
  induction pre with
  | nil => intro rest _; rfl
  | cons c cs ih =>
    intro rest h
    have h0 : stripPrefixCI label (c :: (cs ++ rest)) = none := by
      have := h 0 (by simp)
      simpa using this
    rw [List.cons_append]
    simp only [reSearch, h0]
    exact ih rest (fun i hi => by
      have := h (i + 1) (by simp; omega)
      simpa using this)

theorem colon_in_label1 : ∀ j : Nat, ("MAPPING: ".data)[j]? = some ':' → j = 7 := by
  intro j h
  by_cases hj : j < 9
  · interval_cases j <;> first | rfl | exact absurd h (by decide)
  · rw [List.getElem?_eq_none (by simp; omega)] at h
    cases h

theorem colon_in_label2 : ∀ j : Nat, ("CONFIDENCE: ".data)[j]? = some ':' → j = 10 := by
  intro j h
  by_cases hj : j < 12
  · interval_cases j <;> first | rfl | exact absurd h (by decide)
  · rw [List.getElem?_eq_none (by simp; omega)] at h
    cases h

theorem colon_in_label3 : ∀ j : Nat, ("REASONING: ".data)[j]? = some ':' → j = 9 := by
  intro j h
  by_cases hj : j < 11
  · interval_cases j <;> first | rfl | exact absurd h (by decide)
  · rw [List.getElem?_eq_none (by simp; omega)] at h
    cases h

theorem colon_in_label4 : ∀ j : Nat, ("ALTERNATIVES: ".data)[j]? = some ':' → j = 12 := by
  intro j h
  by_cases hj : j < 14
  · interval_cases j <;> first | rfl | exact absurd h (by decide)
  · rw [List.getElem?_eq_none (by simp; omega)] at h
    cases h

theorem colon_in_value {v : List Char} (hv : ∀ c ∈ v, c ≠ ':') (j : Nat)
    (h : v[j]? = some ':') : False :=
  hv ':' (List.getElem?_mem h) rfl

theorem colon_in_newline (j : Nat) (h : ("\n".data : List Char)[j]? = some ':') : False := by
  by_cases hj : j = 0
  · subst hj
    exact absurd h (by decide)
  · rw [List.getElem?_eq_none (by simp; omega)] at h
    cases h

/-- The right-nested decomposition of the canonical text. -/
theorem canonicalResponse_assoc (m d r1 r2 a : List Char) :
    canonicalResponse m d r1 r2 a =
      "MAPPING: ".data ++ (m ++ ("\n".data ++ ("CONFIDENCE: ".data ++ (d ++ ("\n".data
        ++ ("REASONING: ".data ++ (r1 ++ ("\n".data ++ (r2 ++ ("\n".data
        ++ ("ALTERNATIVES: ".data ++ a))))))))))) := by
  simp [canonicalResponse, List.append_assoc]

/-- Complete inventory of the positions of `':'` in the canonical text, for
colon-free values: only the four label colons. -/
theorem canonical_colon_positions {m d r1 r2 a : List Char}
    (hm : ∀ c ∈ m, c ≠ ':') (hd : ∀ c ∈ d, c ≠ ':')
    (hr1 : ∀ c ∈ r1, c ≠ ':') (hr2 : ∀ c ∈ r2, c ≠ ':') (ha : ∀ c ∈ a, c ≠ ':') :
    ∀ p, (canonicalResponse m d r1 r2 a)[p]? = some ':' →
      p = 7 ∨ p = m.length + 20 ∨ p = m.length + d.length + 32
        ∨ p = m.length + d.length + r1.length + r2.length + 48 := by
  intro p hp
  rw [canonicalResponse_assoc] at hp
  rw [List.getElem?_append] at hp
  split_ifs at hp with h1
  · exact Or.inl (colon_in_label1 p hp)
  · rw [List.getElem?_append] at hp
    split_ifs at hp with h2
    · exact (colon_in_value hm _ hp).elim
    · rw [List.getElem?_append] at hp
      split_ifs at hp with h3
      · exact (colon_in_newline _ hp).elim
      · rw [List.getElem?_append] at hp
        split_ifs at hp with h4
        · have := colon_in_label2 _ hp
          right; left
          simp only [List.length_cons, List.length_nil] at *
          omega
        · rw [List.getElem?_append] at hp
          split_ifs at hp with h5
          · exact (colon_in_value hd _ hp).elim
          · rw [List.getElem?_append] at hp
            split_ifs at hp with h6
            · exact (colon_in_newline _ hp).elim
            · rw [List.getElem?_append] at hp
              split_ifs at hp with h7
              · have := colon_in_label3 _ hp
                right; right; left
                simp only [List.length_cons, List.length_nil] at *
                omega
              · rw [List.getElem?_append] at hp
                split_ifs at hp with h8
                · exact (colon_in_value hr1 _ hp).elim
                · rw [List.getElem?_append] at hp
                  split_ifs at hp with h9
                  · exact (colon_in_newline _ hp).elim
                  · rw [List.getElem?_append] at hp
                    split_ifs at hp with h10
                    · exact (colon_in_value hr2 _ hp).elim
                    · rw [List.getElem?_append] at hp
                      split_ifs at hp with h11
                      · exact (colon_in_newline _ hp).elim
                      · rw [List.getElem?_append] at hp
                        split_ifs at hp with h12
                        · have := colon_in_label4 _ hp
                          right; right; right
                          simp only [List.length_cons, List.length_nil] at *
                          omega
                        · exact (colon_in_value ha _ hp).elim

theorem getElem?_append_right_exact (xs ys : List Char) (n j : Nat)
    (h : n = xs.length + j) : (xs ++ ys)[n]? = ys[j]? := by
  subst h
  rw [List.getElem?_append_right (by omega)]
  congr 1
  omega

/-- The character just before the `CONFIDENCE:` colon: `'E'` at position
`|m| + 19`. -/
theorem canonical_char_E (m d r1 r2 a : List Char) :
    (canonicalResponse m d r1 r2 a)[m.length + 19]? = some 'E' := by
  rw [canonicalResponse_assoc]
  rw [getElem?_append_right_exact "MAPPING: ".data _ (m.length + 19) (m.length + 10)
    (by simp only [List.length_cons, List.length_nil]; omega)]
  rw [getElem?_append_right_exact m _ (m.length + 10) 10 (by omega)]
  rfl

/-- The character just before the `REASONING:` colon: `'G'` at position
`|m| + |d| + 31`. -/
theorem canonical_char_G (m d r1 r2 a : List Char) :
    (canonicalResponse m d r1 r2 a)[m.length + d.length + 31]? = some 'G' := by
  rw [canonicalResponse_assoc]
  rw [getElem?_append_right_exact "MAPPING: ".data _ (m.length + d.length + 31)
    (m.length + (d.length + 22)) (by simp only [List.length_cons, List.length_nil]; omega)]
  rw [getElem?_append_right_exact m _ (m.length + (d.length + 22)) (d.length + 22) (by omega)]
  rw [getElem?_append_right_exact "\n".data _ (d.length + 22) (d.length + 21)
    (by simp only [List.length_cons, List.length_nil]; omega)]
  rw [getElem?_append_right_exact "CONFIDENCE: ".data _ (d.length + 21) (d.length + 9)
    (by simp only [List.length_cons, List.length_nil]; omega)]
  rw [getElem?_append_right_exact d _ (d.length + 9) 9 (by omega)]
  rfl

theorem digit_ne_colon {c : Char} (h : pyIsDigit c = true) : c ≠ ':' := by
  intro hc
  subst hc
  exact absurd h (by decide)

/-- `CONFIDENCE:` cannot match at any position before its own label. -/
theorem canonical_noOcc_conf {m d r1 r2 a : List Char}
    (hm : ∀ c ∈ m, c ≠ ':') (hd : ∀ c ∈ d, c ≠ ':')
    (hr1 : ∀ c ∈ r1, c ≠ ':') (hr2 : ∀ c ∈ r2, c ≠ ':') (ha : ∀ c ∈ a, c ≠ ':')
    (i : Nat) (hi : i < m.length + 10) :
    stripPrefixCI confidenceLabelL ((canonicalResponse m d r1 r2 a).drop i) = none := by
  cases hopt : stripPrefixCI confidenceLabelL ((canonicalResponse m d r1 r2 a).drop i) with
  | none => rfl
  | some r =>
    exfalso
    obtain ⟨c', hc', hci⟩ := stripPrefixCI_get confidenceLabelL _ r hopt 10 ':' (by decide)
    rw [List.getElem?_drop] at hc'
    have hcol := ciEq_colon hci
    subst hcol
    rcases canonical_colon_positions hm hd hr1 hr2 ha (i + 10) hc' with h | h | h | h <;> omega

/-- `REASONING:` cannot match at any position before its own label. -/
theorem canonical_noOcc_reas {m d r1 r2 a : List Char}
    (hm : ∀ c ∈ m, c ≠ ':') (hd : ∀ c ∈ d, c ≠ ':')
    (hr1 : ∀ c ∈ r1, c ≠ ':') (hr2 : ∀ c ∈ r2, c ≠ ':') (ha : ∀ c ∈ a, c ≠ ':')
    (i : Nat) (hi : i < m.length + d.length + 23) :
    stripPrefixCI reasoningLabelL ((canonicalResponse m d r1 r2 a).drop i) = none := by
  cases hopt : stripPrefixCI reasoningLabelL ((canonicalResponse m d r1 r2 a).drop i) with
  | none => rfl
  | some r =>
    exfalso
    obtain ⟨c', hc', hci⟩ := stripPrefixCI_get reasoningLabelL _ r hopt 9 ':' (by decide)
    rw [List.getElem?_drop] at hc'
    have hcol := ciEq_colon hci
    subst hcol
    rcases canonical_colon_positions hm hd hr1 hr2 ha (i + 9) hc' with h | h | h | h
    · omega
    · have hieq : i = m.length + 11 := by omega
      subst hieq
      obtain ⟨c2, hc2, hci2⟩ := stripPrefixCI_get reasoningLabelL _ r hopt 8 'G' (by decide)
      rw [List.getElem?_drop] at hc2
      rw [show m.length + 11 + 8 = m.length + 19 from by omega] at hc2
      rw [canonical_char_E m d r1 r2 a] at hc2
      have : c2 = 'E' := by
        injection hc2 with h2
        exact h2.symm
      subst this
      exact absurd hci2 (by decide)
    · omega
    · omega

/-- `ALTERNATIVES:` cannot match at any position before its own label. -/
theorem canonical_noOcc_alt {m d r1 r2 a : List Char}
    (hm : ∀ c ∈ m, c ≠ ':') (hd : ∀ c ∈ d, c ≠ ':')
    (hr1 : ∀ c ∈ r1, c ≠ ':') (hr2 : ∀ c ∈ r2, c ≠ ':') (ha : ∀ c ∈ a, c ≠ ':')
    (i : Nat) (hi : i < m.length + d.length + r1.length + r2.length + 36) :
    stripPrefixCI altLabelL ((canonicalResponse m d r1 r2 a).drop i) = none := by
  cases hopt : stripPrefixCI altLabelL ((canonicalResponse m d r1 r2 a).drop i) with
  | none => rfl
  | some r =>
    exfalso
    obtain ⟨c1, hc1, hci⟩ := stripPrefixCI_get altLabelL _ r hopt 12 ':' (by decide)
    rw [List.getElem?_drop] at hc1
    have hcol := ciEq_colon hci
    subst hcol
    rcases canonical_colon_positions hm hd hr1 hr2 ha (i + 12) hc1 with h | h | h | h
    · omega
    · have hieq : i = m.length + 8 := by omega
      subst hieq
      obtain ⟨c2, hc2, hci2⟩ := stripPrefixCI_get altLabelL _ r hopt 11 'S' (by decide)
      rw [List.getElem?_drop] at hc2
      rw [show m.length + 8 + 11 = m.length + 19 from by omega] at hc2
      rw [canonical_char_E m d r1 r2 a] at hc2
      have hc2e : c2 = 'E' := by
        injection hc2 with h2
        exact h2.symm
      subst hc2e
      exact absurd hci2 (by decide)
    · have hieq : i = m.length + d.length + 20 := by omega
      subst hieq
      obtain ⟨c2, hc2, hci2⟩ := stripPrefixCI_get altLabelL _ r hopt 11 'S' (by decide)
      rw [List.getElem?_drop] at hc2
      rw [show m.length + d.length + 20 + 11 = m.length + d.length + 31 from by omega] at hc2
      rw [canonical_char_G m d r1 r2 a] at hc2
      have hc2g : c2 = 'G' := by
        injection hc2 with h2
        exact h2.symm
      subst hc2g
      exact absurd hci2 (by decide)
    · omega

theorem reSearch_cons_hit (label : List Char) (t : List Char → Option (List Char))
    (c : Char) (cs rest g : List Char)
    (h1 : stripPrefixCI label (c :: cs) = some rest) (h2 : t rest = some g) :
    reSearch label t (c :: cs) = some g := by
  simp only [reSearch, h1, h2]

/-- The negative lookahead holds while the loop is inside `r2`: the
`ALTERNATIVES:` label cannot match at the start of
`r2 ++ '\n' :: "ALTERNATIVES: " ++ a`. -/
theorem altLabel_not_prefix_at_r2 {r2 a : List Char}
    (hne2 : r2 ≠ []) (hr2c : ∀ c ∈ r2, c ≠ ':') :
    isPrefixCI altLabelL (r2 ++ '\n' :: ("ALTERNATIVES: ".data ++ a)) = false := by
  cases hopt : stripPrefixCI altLabelL (r2 ++ '\n' :: ("ALTERNATIVES: ".data ++ a)) with
  | none =>
    unfold isPrefixCI
    rw [hopt]
    rfl
  | some r =>
    exfalso
    obtain ⟨c1, hc1, hci⟩ := stripPrefixCI_get altLabelL _ r hopt 12 ':' (by decide)
    have hcol := ciEq_colon hci
    subst hcol
    rw [List.getElem?_append] at hc1
    split_ifs at hc1 with h1
    · exact colon_in_value hr2c _ hc1
    · have hr2len : 1 ≤ r2.length := by
        cases r2 with
        | nil => exact absurd rfl hne2
        | cons x xs => simp
      rcases hj : 12 - r2.length with _ | j'
      · rw [hj] at hc1
        simp only [List.getElem?_cons_zero] at hc1
        exact absurd hc1 (by decide)
      · rw [hj] at hc1
        simp only [List.getElem?_cons_succ] at hc1
        rw [List.getElem?_append] at hc1
        split_ifs at hc1 with h2
        · have := colon_in_label4 _ hc1
          omega
        · simp only [List.length_cons, List.length_nil] at h2
          omega

/-! ## The four searches on the canonical text -/

theorem canonical_search_mapping {m d r1 r2 a : List Char}
    (hm : cleanValue m = true) :
    reSearch mappingLabelL matchValueTail (canonicalResponse m d r1 r2 a) = some m := by
  rw [canonicalResponse_assoc,
    show ("MAPPING: ".data : List Char) = 'M' :: "APPING: ".data from rfl,
    List.cons_append]
  exact reSearch_cons_hit _ _ _ _ _ _ rfl (matchValueTail_clean_line hm _)

theorem canonical_search_conf {m d r1 r2 a : List Char}
    (hm : cleanValue m = true) (hr1 : cleanValue r1 = true)
    (hr2 : cleanValue r2 = true) (ha : cleanValue a = true)
    (hdne : d ≠ []) (hdd : ∀ c ∈ d, pyIsDigit c = true) :
    reSearch confidenceLabelL matchDigitsTail (canonicalResponse m d r1 r2 a) = some d := by
  obtain ⟨_, _, _, _, hmc⟩ := cleanValue_spec hm
  obtain ⟨_, _, _, _, hr1c⟩ := cleanValue_spec hr1
  obtain ⟨_, _, _, _, hr2c⟩ := cleanValue_spec hr2
  obtain ⟨_, _, _, _, hac⟩ := cleanValue_spec ha
  have hdc : ∀ c ∈ d, c ≠ ':' := fun c hc => digit_ne_colon (hdd c hc)
  rw [canonicalResponse_assoc, ← List.append_assoc, ← List.append_assoc]
  rw [reSearch_skip confidenceLabelL matchDigitsTail (("MAPPING: ".data ++ m) ++ "\n".data) _
    ?hno]
  case hno =>
    intro i hi
    rw [List.append_assoc, List.append_assoc, ← canonicalResponse_assoc]
    apply canonical_noOcc_conf hmc hdc hr1c hr2c hac i
    simp only [List.length_append, List.length_cons, List.length_nil] at hi
    omega
  rw [show ("CONFIDENCE: ".data : List Char) = 'C' :: "ONFIDENCE: ".data from rfl,
    List.cons_append]
  exact reSearch_cons_hit _ _ _ _ _ _ rfl (matchDigitsTail_digits hdne hdd _)

theorem canonical_search_reas {m d r1 r2 a : List Char}
    (hm : cleanValue m = true) (hr1 : cleanValue r1 = true)
    (hr2 : cleanValue r2 = true) (ha : cleanValue a = true)
    (hdne : d ≠ []) (hdd : ∀ c ∈ d, pyIsDigit c = true) :
    reSearch reasoningLabelL matchReasoningTail (canonicalResponse m d r1 r2 a)
      = some (r1 ++ '\n' :: r2) := by
  obtain ⟨_, _, _, _, hmc⟩ := cleanValue_spec hm
  obtain ⟨_, _, _, _, hr1c⟩ := cleanValue_spec hr1
  obtain ⟨hne2, _, _, _, hr2c⟩ := cleanValue_spec hr2
  obtain ⟨_, _, _, _, hac⟩ := cleanValue_spec ha
  have hdc : ∀ c ∈ d, c ≠ ':' := fun c hc => digit_ne_colon (hdd c hc)
  rw [canonicalResponse_assoc, ← List.append_assoc, ← List.append_assoc,
    ← List.append_assoc, ← List.append_assoc, ← List.append_assoc]
  rw [reSearch_skip reasoningLabelL matchReasoningTail
    ((((("MAPPING: ".data ++ m) ++ "\n".data) ++ "CONFIDENCE: ".data) ++ d) ++ "\n".data)
    _ ?hno]
  case hno =>
    intro i hi
    rw [List.append_assoc, List.append_assoc, List.append_assoc, List.append_assoc,
      List.append_assoc, ← canonicalResponse_assoc]
    apply canonical_noOcc_reas hmc hdc hr1c hr2c hac i
    simp only [List.length_append, List.length_cons, List.length_nil] at hi
    omega
  rw [show ("REASONING: ".data : List Char) = 'R' :: "EASONING: ".data from rfl,
    List.cons_append]
  exact reSearch_cons_hit _ _ _ _ _ _ rfl
    (matchReasoningTail_two_lines hr1 hr2
      (altLabel_not_prefix_at_r2 hne2 hr2c) rfl)

theorem canonical_search_alt {m d r1 r2 a : List Char}
    (hm : cleanValue m = true) (hr1 : cleanValue r1 = true)
    (hr2 : cleanValue r2 = true) (ha : cleanValue a = true)
    (hdne : d ≠ []) (hdd : ∀ c ∈ d, pyIsDigit c = true) :
    reSearch altLabelL matchValueTail (canonicalResponse m d r1 r2 a) = some a := by
  obtain ⟨_, _, _, _, hmc⟩ := cleanValue_spec hm
  obtain ⟨_, _, _, _, hr1c⟩ := cleanValue_spec hr1
  obtain ⟨_, _, _, _, hr2c⟩ := cleanValue_spec hr2
  obtain ⟨_, _, _, _, hac⟩ := cleanValue_spec ha
  have hdc : ∀ c ∈ d, c ≠ ':' := fun c hc => digit_ne_colon (hdd c hc)
  rw [canonicalResponse_assoc, ← List.append_assoc, ← List.append_assoc,
    ← List.append_assoc, ← List.append_assoc, ← List.append_assoc,
    ← List.append_assoc, ← List.append_assoc, ← List.append_assoc,
    ← List.append_assoc, ← List.append_assoc]
  rw [reSearch_skip altLabelL matchValueTail
    (((((((((("MAPPING: ".data ++ m) ++ "\n".data) ++ "CONFIDENCE: ".data) ++ d)
      ++ "\n".data) ++ "REASONING: ".data) ++ r1) ++ "\n".data) ++ r2) ++ "\n".data)
    _ ?hno]
  case hno =>
    intro i hi
    rw [List.append_assoc, List.append_assoc, List.append_assoc, List.append_assoc,
      List.append_assoc, List.append_assoc, List.append_assoc, List.append_assoc,
      List.append_assoc, List.append_assoc, ← canonicalResponse_assoc]
    apply canonical_noOcc_alt hmc hdc hr1c hr2c hac i
    simp only [List.length_append, List.length_cons, List.length_nil] at hi
    omega
  rw [show ("ALTERNATIVES: ".data : List Char) = 'A' :: "LTERNATIVES: ".data from rfl,
    List.cons_append]
  exact reSearch_cons_hit _ _ _ _ _ _ rfl (matchValueTail_clean_end ha)

/-- C7 counterexample: a text containing all four labels, with the REASONING
line followed by the CONFIDENCE line.  The spec says REASONING spans lines
"until the next recognized label", but the regex's negative lookahead only
excludes `ALTERNATIVES:`, so the recognized `CONFIDENCE: 90` line is swallowed
into the reasoning value instead of terminating it. -/
theorem claim7_counterexample :
    (parse_claude_response
      "MAPPING: 101000\nREASONING: matches cash\nCONFIDENCE: 90\nALTERNATIVES: None".data).reasoning
        = "matches cash\nCONFIDENCE: 90".data
    ∧ (parse_claude_response
      "MAPPING: 101000\nREASONING: matches cash\nCONFIDENCE: 90\nALTERNATIVES: None".data).reasoning
        ≠ "matches cash".data := by
  constructor
  · decide
  · decide

/-- C7 (amended): for a completion text carrying the four labeled lines in the
canonical order (MAPPING, CONFIDENCE, REASONING over two lines, ALTERNATIVES),
with label-free, colon-free, whitespace-trimmed values and a nonempty digit
string for the confidence, the parser extracts exactly the labeled values:
the mapping and the two-line reasoning verbatim (already trimmed), the
confidence as the parsed integer, and the alternatives split on commas,
trimmed, with empty and "none" entries dropped.  Label matching is
case-insensitive: a text with mixed-case labels parses identically. -/
theorem claim7_amended {m d r1 r2 a : List Char}
    (hm : cleanValue m = true) (hr1 : cleanValue r1 = true)
    (hr2 : cleanValue r2 = true) (ha : cleanValue a = true)
    (hdne : d ≠ []) (hdd : ∀ c ∈ d, pyIsDigit c = true) :
    parse_claude_response (canonicalResponse m d r1 r2 a) =
      { mapping := m
        confidence := (digitsToNat d : Int)
        reasoning := r1 ++ '\n' :: r2
        alternatives := altProcess a
        raw_response := canonicalResponse m d r1 r2 a }
    ∧ parse_claude_response
        "Mapping: 101-X\nConfidence: 95\nReasoning: fits\nAlternatives: 200, none".data =
      { mapping := "101-X".data
        confidence := 95
        reasoning := "fits".data
        alternatives := ["200".data]
        raw_response :=
          "Mapping: 101-X\nConfidence: 95\nReasoning: fits\nAlternatives: 200, none".data } := by
  refine ⟨?_, by decide⟩
  simp only [parse_claude_response, canonical_search_mapping hm,
    canonical_search_conf hm hr1 hr2 ha hdne hdd,
    canonical_search_reas hm hr1 hr2 ha hdne hdd,
    canonical_search_alt hm hr1 hr2 ha hdne hdd,
    pyStrip_clean hm, pyStrip_clean_two hr1 hr2]

/-- C7 witness: the amended theorem applied at a concrete four-label text. -/
theorem claim7_witness :
    cleanValue "matches cash".data = true ∧
    parse_claude_response (canonicalResponse "101000".data "90".data
        "matches cash".data "keyword overlap".data "101100".data) =
      { mapping := "101000".data
        confidence := (digitsToNat "90".data : Int)
        reasoning := "matches cash".data ++ '\n' :: "keyword overlap".data
        alternatives := altProcess "101100".data
        raw_response := canonicalResponse "101000".data "90".data
          "matches cash".data "keyword overlap".data "101100".data } :=
  ⟨by decide,
    (claim7_amended (by decide) (by decide) (by decide) (by decide)
      (by decide) (by decide)).1⟩
